import Mathlib

/-!
Verification of the Gadget-2 snapshot decoder `read_gadget_snapshot`
from `scripts/download_snapshot.py`.

Modelling conventions (shallow embedding of the Python source):

* The `io.BytesIO` object is modelled by `ByteStream`: a list of bytes plus a
  cursor.  `seek(n, 1)` on a `BytesIO` never checks bounds, so `seekCur` just
  adds to the cursor; `read(n)` returns the available bytes (at most `n`) and
  clamps the cursor to the end of the buffer, exactly like `BytesIO.read`.
* `struct.unpack` values are represented by their little-endian bit patterns
  as `Nat`s: a 4-byte field (`I`/`i`) by one word, an 8-byte field (`d`) by
  one word.  The program only ever compares these values for equality or
  Python truthiness, and both operations are faithfully reflected on the bit
  patterns (for an IEEE-754 double the only falsy patterns are +0.0 and
  -0.0, i.e. words 0 and 2^63; NaN is truthy).
* Exceptions raised by the Python code are modelled by `Except DecodeError`.
* `gadget_header_fmt = '6I6dddii6Iiiddddii6Ii'` has `struct.calcsize` 196
  (native alignment inserts no padding), so the field offsets used in
  `unpackHeader` are the exact byte offsets of the packed header.
-/

/-- Model of `io.BytesIO`: the underlying bytes and the current position. -/
structure ByteStream where
  data : List Nat
  pos : Nat
deriving DecidableEq, Repr

/-- `bstream.seek(n, 1)`: relative seek.  `BytesIO` allows seeking past the
end of the buffer without error, so no bound is checked. -/
def ByteStream.seekCur (s : ByteStream) (n : Nat) : ByteStream :=
  ⟨s.data, s.pos + n⟩

/-- `bstream.read(n)`: returns up to `n` bytes starting at the cursor and
advances the cursor by the number of bytes actually returned (like
`BytesIO.read`, the cursor does not move when it already sits past the end
of the buffer). -/
def ByteStream.read (s : ByteStream) (n : Nat) : List Nat × ByteStream :=
  ((s.data.drop s.pos).take n,
   ⟨s.data, s.pos + ((s.data.drop s.pos).take n).length⟩)

/-- Little-endian decoding of a byte list into a natural number; this is how
`struct.unpack` interprets `I` (with 4 bytes) and how the raw bit pattern of
any little-endian field is read. -/
def decodeLE (bs : List Nat) : Nat :=
  bs.foldr (fun b acc => b + 256 * acc) 0

/-- The numpy dtypes appearing in the source: `np.float32`, `np.float64`,
`np.uint32`, `np.uint64`. -/
inductive Dtype
  | f32
  | f64
  | u32
  | u64
deriving DecidableEq, Repr

/-- `np.dtype(...).itemsize`. -/
def Dtype.itemsize : Dtype → Nat
  | .f32 => 4
  | .f64 => 8
  | .u32 => 4
  | .u64 => 8

/-- The errors the decoder can raise.
* `structError` — `struct.error` from `struct.unpack` when the stream
  returned fewer bytes than the format requires (header read or 4-byte
  block-size read);
* `invalidBlockSize` — `ValueError('Invalid block size in file!')`
  (line 108); note that the Python exception carries only this constant
  message, no block kind or byte count;
* `frombufferError` — `ValueError` from `np.frombuffer` when the buffer
  length is not a multiple of the element size;
* `reshapeError` — `ValueError` from the `data.shape = ...` assignment when
  the element count does not match the requested shape. -/
inductive DecodeError
  | structError
  | invalidBlockSize
  | frombufferError
  | reshapeError
deriving DecidableEq, Repr

/-- The 17 fields of the `gadget_header` namedtuple, each 4-byte field as its
32-bit word and each 8-byte field as its 64-bit word. -/
structure gadget_header where
  npart : List Nat
  mass : List Nat
  time : Nat
  redshift : Nat
  flag_sfr : Nat
  flag_feedback : Nat
  npartTotal : List Nat
  flag_cooling : Nat
  num_files : Nat
  BoxSize : Nat
  Omega0 : Nat
  OmegaLambda : Nat
  HubbleParam : Nat
  flag_age : Nat
  flag_metals : Nat
  NallHW : List Nat
  flag_entr_ics : Nat
deriving DecidableEq, Repr

/-- 32-bit little-endian word of `bs` at byte offset `off`. -/
def u32at (bs : List Nat) (off : Nat) : Nat :=
  decodeLE ((bs.drop off).take 4)

/-- 64-bit little-endian word of `bs` at byte offset `off`. -/
def u64at (bs : List Nat) (off : Nat) : Nat :=
  decodeLE ((bs.drop off).take 8)

/-- `struct.unpack('6I6dddii6Iiiddddii6Ii', bs)` as the flat list `h` of the
37 unpacked values (bit patterns).  Byte offsets follow the packed layout:
6 uints at 0..23, 6 doubles at 24..71, 2 doubles at 72..87, 2 ints at
88..95, 6 uints at 96..119, 2 ints at 120..127, 4 doubles at 128..159,
2 ints at 160..167, 6 uints at 168..191, 1 int at 192..195. -/
def unpackHeader (bs : List Nat) : List Nat :=
  [u32at bs 0, u32at bs 4, u32at bs 8, u32at bs 12, u32at bs 16, u32at bs 20,
   u64at bs 24, u64at bs 32, u64at bs 40, u64at bs 48, u64at bs 56, u64at bs 64,
   u64at bs 72, u64at bs 80,
   u32at bs 88, u32at bs 92,
   u32at bs 96, u32at bs 100, u32at bs 104, u32at bs 108, u32at bs 112, u32at bs 116,
   u32at bs 120, u32at bs 124,
   u64at bs 128, u64at bs 136, u64at bs 144, u64at bs 152,
   u32at bs 160, u32at bs 164,
   u32at bs 168, u32at bs 172, u32at bs 176, u32at bs 180, u32at bs 184, u32at bs 188,
   u32at bs 192]

/-- Lines 64-67 of the source: `h[30] = 0; h[31] = h[18]; h[18] = 0`. -/
def lgadget_remap (h : List Nat) : List Nat :=
  let h1 := h.set 30 0
  let h2 := h1.set 31 (h1.getD 18 0)
  h2.set 18 0

/-- Lines 70-72: `gadget_header._make((h[0:6],) + (h[6:12],) + h[12:16] +
(h[16:22],) + h[22:30] + (h[30:36],) + h[36:])`. -/
def gadget_header_make (h : List Nat) : gadget_header :=
  { npart := h.take 6
    mass := (h.drop 6).take 6
    time := h.getD 12 0
    redshift := h.getD 13 0
    flag_sfr := h.getD 14 0
    flag_feedback := h.getD 15 0
    npartTotal := (h.drop 16).take 6
    flag_cooling := h.getD 22 0
    num_files := h.getD 23 0
    BoxSize := h.getD 24 0
    Omega0 := h.getD 25 0
    OmegaLambda := h.getD 26 0
    HubbleParam := h.getD 27 0
    flag_age := h.getD 28 0
    flag_metals := h.getD 29 0
    NallHW := (h.drop 30).take 6
    flag_entr_ics := h.getD 36 0 }

/-- Python truthiness test of an IEEE-754 double given as its 64-bit word:
the only falsy doubles are +0.0 (word 0) and -0.0 (word 2^63). -/
def floatIsZero (w : Nat) : Bool :=
  w = 0 || w = 9223372036854775808

/-- An in-memory numpy array produced by `np.frombuffer`: the dtype, the raw
element words in order, and the `(rows, cols)` shape when the
`data.shape = (npart_this, item_per_part)` assignment was performed. -/
structure NpArray where
  dtype : Dtype
  elems : List Nat
  shape2 : Option (Nat × Nat)
deriving DecidableEq, Repr

/-- An element of the Python list `ret`. -/
inductive RetItem
  | header (h : gadget_header)
  | arr (a : NpArray)
deriving DecidableEq, Repr

/-- The value returned by `read_gadget_snapshot`: line 76 returns the bare
header namedtuple itself, line 129 returns `tuple(ret)`. -/
inductive RetVal
  | bareHeader (h : gadget_header)
  | tuple (items : List RetItem)
deriving DecidableEq, Repr

/-- Helper for `chunkWords`: structural recursion on a fuel argument (the
buffer length), so that applications to concrete buffers reduce
definitionally. -/
def chunkWordsAux (w : Nat) : Nat → List Nat → List Nat
  | _, [] => []
  | 0, _ => []
  | f + 1, bs =>
    if w = 0 then [] else decodeLE (bs.take w) :: chunkWordsAux w f (bs.drop w)

/-- `np.frombuffer`'s grouping of a byte buffer into consecutive `w`-byte
little-endian element words. -/
def chunkWords (w : Nat) (bs : List Nat) : List Nat :=
  chunkWordsAux w bs.length bs

/-- Lines 105-108 of the source, the per-block element-width inference:
start from the narrow dtype, switch to the wide one if the declared byte
count does not match, and fail if it still does not match. -/
def infer_block_fmt (size_check block_item_size : Nat) (fmt0 fmt_64 : Dtype) :
    Except DecodeError Dtype :=
  let fmt := if size_check ≠ block_item_size * fmt0.itemsize then fmt_64 else fmt0
  if size_check ≠ block_item_size * fmt.itemsize then .error .invalidBlockSize
  else .ok fmt

/-- Lines 86-95: the narrow dtype per block index (`np.float32`, except
`np.uint32` for the id block `i = 2`). -/
def block_fmt (i : Nat) : Dtype :=
  if i = 2 then .u32 else .f32

/-- Lines 87-95: the wide fallback dtype per block index. -/
def block_fmt_64 (i : Nat) : Dtype :=
  if i = 2 then .u64 else .f64

/-- Lines 88-92: `item_per_part` is 3 for positions and velocities, 1 for
ids and masses. -/
def block_item_per_part (i : Nat) : Nat :=
  if i < 2 then 3 else 1

/-- One iteration of the `for i, b in enumerate(blocks_to_read)` loop
(lines 85-127).  `more` is `any(blocks_to_read[i+1:])`.  Returns the array
appended to `ret` (if any), the new stream, and whether the loop `break`s. -/
def blockStep (npartH massNpart : List Nat) (st : Int) (i : Nat) (b : Bool)
    (more : Bool) (s : ByteStream) :
    Except DecodeError (Option NpArray × ByteStream × Bool) :=
  -- lines 96-99: empty mass block, appended and the loop left at once
  if i = 3 ∧ massNpart.sum = 0 then
    .ok (some ⟨.f32, [], none⟩, s, true)
  else
    let npart := if i = 3 then massNpart else npartH
    let item_per_part := block_item_per_part i
    -- line 102: size_check = struct.unpack('I', bstream.read(4))[0]
    let r := s.read 4
    let mb := r.1
    let s1 := r.2
    if mb.length ≠ 4 then .error .structError
    else
      let size_check := decodeLE mb
      match infer_block_fmt size_check (item_per_part * npart.sum)
          (block_fmt i) (block_fmt_64 i) with
      | .error e => .error e
      | .ok fmt =>
        let size_per_part := item_per_part * fmt.itemsize
        if b = false then
          -- line 112: skip the whole payload, then line 127 skips the marker
          .ok (none, (s1.seekCur (npart.sum * size_per_part)).seekCur 4, false)
        else
          -- lines 114-118
          let s2 := if (-1 : Int) < st then
              s1.seekCur ((npart.take st.toNat).sum * size_per_part) else s1
          let npart_this := if (-1 : Int) < st then npart.getD st.toNat 0
              else npart.sum
          -- line 119: data = np.frombuffer(bstream.read(...), fmt)
          let rd := s2.read (npart_this * size_per_part)
          let db := rd.1
          let s3 := rd.2
          if db.length % fmt.itemsize ≠ 0 then .error .frombufferError
          else
            let elems := chunkWords fmt.itemsize db
            -- lines 120-121: data.shape = (npart_this, item_per_part)
            if 1 < item_per_part ∧ elems.length ≠ npart_this * item_per_part then
              .error .reshapeError
            else
              let data : NpArray :=
                ⟨fmt, elems,
                 if 1 < item_per_part then some (npart_this, item_per_part) else none⟩
              -- lines 123-124: early stop
              if more = false then .ok (some data, s3, true)
              else
                -- lines 125-126: skip the trailing particle types
                let s4 := if (-1 : Int) < st then
                    s3.seekCur ((npart.drop (st.toNat + 1)).sum * size_per_part)
                  else s3
                .ok (some data, s4.seekCur 4, false)

/-- The block walk, lines 85-127, over `enumerate(blocks_to_read)`. -/
def blockLoop (npartH massNpart : List Nat) (st : Int)
    (btr : List (Nat × Bool)) (s : ByteStream) (ret : List RetItem) :
    Except DecodeError (List RetItem × ByteStream) :=
  match btr with
  | [] => .ok (ret, s)
  | (i, b) :: rest =>
    match blockStep npartH massNpart st i b (rest.any (fun x => x.2)) s with
    | .error e => .error e
    | .ok (item?, s', brk) =>
      let ret' := match item? with
        | some a => ret ++ [RetItem.arr a]
        | none => ret
      if brk then .ok (ret', s') else blockLoop npartH massNpart st rest s' ret'

/-- The decoder `read_gadget_snapshot` (lines 13-129).  The `print_header`
parameter only prints and is omitted.  `struct.calcsize(gadget_header_fmt)`
is 196, so line 78 seeks `256 - 196 = 60` bytes of padding. -/
def read_gadget_snapshot (bstream : ByteStream)
    (read_pos read_vel read_id read_mass : Bool)
    (single_type : Int) (lgadget : Bool) :
    Except DecodeError (RetVal × ByteStream) :=
  let blocks_to_read := [read_pos, read_vel, read_id, read_mass]
  -- line 61: bstream.seek(4, 1)
  let s1 := bstream.seekCur 4
  -- lines 62-63: h = list(struct.unpack(..., bstream.read(196)))
  let r := s1.read 196
  let hb := r.1
  let s2 := r.2
  if hb.length ≠ 196 then .error .structError
  else
    let h0 := unpackHeader hb
    -- lines 64-68
    let h := if lgadget then lgadget_remap h0 else h0
    let single_type := if lgadget then 1 else single_type
    let header := gadget_header_make h
    -- lines 75-76: the bare header namedtuple is returned, not a 1-tuple
    if (blocks_to_read.any id) = false then .ok (.bareHeader header, s2)
    else
      -- lines 78-79
      let s3 := (s2.seekCur (256 - 196)).seekCur 4
      -- line 81
      let mass_npart :=
        List.zipWith (fun m n => if floatIsZero m then n else 0)
          header.mass header.npart
      -- lines 82-83: if single_type not in set(range(6)): single_type = -1
      let single_type :=
        if 0 ≤ single_type ∧ single_type ≤ 5 then single_type else -1
      match blockLoop header.npart mass_npart single_type
          blocks_to_read.enum s3 [RetItem.header header] with
      | .error e => .error e
      | .ok (ret, s4) => .ok (.tuple ret, s4)

/-! ## Basic facts about the stream and helpers -/

theorem take_drop_length (D : List Nat) (p n : Nat) (h : p + n ≤ D.length) :
    ((D.drop p).take n).length = n := by
  simp only [List.length_take, List.length_drop]
  omega

theorem ByteStream.read_eq (s : ByteStream) (n : Nat)
    (h : s.pos + n ≤ s.data.length) :
    s.read n = ((s.data.drop s.pos).take n, ⟨s.data, s.pos + n⟩) := by
  unfold ByteStream.read
  rw [take_drop_length s.data s.pos n h]

theorem Dtype.itemsize_pos (d : Dtype) : 0 < d.itemsize := by
  cases d <;> decide

theorem block_fmt_itemsize (i : Nat) : (block_fmt i).itemsize = 4 := by
  unfold block_fmt
  split <;> rfl

theorem block_fmt_64_itemsize (i : Nat) : (block_fmt_64 i).itemsize = 8 := by
  unfold block_fmt_64
  split <;> rfl

theorem chunkWords_nil (w : Nat) : chunkWords w [] = [] := rfl

theorem chunkWordsAux_length (w : Nat) (hw : 0 < w) :
    ∀ (k : Nat) (bs : List Nat) (fuel : Nat), bs.length = k * w →
      bs.length ≤ fuel → (chunkWordsAux w fuel bs).length = k := by
  intro k
  induction k with
  | zero =>
    intro bs fuel hbs _
    have hb : bs = [] := List.length_eq_zero.mp (by omega)
    subst hb
    cases fuel <;> rfl
  | succ k ih =>
    intro bs fuel hbs hfuel
    have hpos : 0 < bs.length := by
      rw [hbs]
      exact Nat.mul_pos (Nat.succ_pos k) hw
    obtain ⟨a, l, rfl⟩ : ∃ a l, bs = a :: l := by
      cases bs with
      | nil => simp at hpos
      | cons a l => exact ⟨a, l, rfl⟩
    cases fuel with
    | zero => simp at hfuel
    | succ f =>
      show (if w = 0 then []
        else decodeLE ((a :: l).take w) ::
          chunkWordsAux w f ((a :: l).drop w)).length = k + 1
      rw [if_neg (by omega)]
      have hdrop : ((a :: l).drop w).length = k * w := by
        simp only [List.length_drop]
        rw [hbs]
        ring_nf
        omega
      have hdle : ((a :: l).drop w).length ≤ f := by
        simp only [List.length_drop] at *
        omega
      simp [ih _ _ hdrop hdle]

theorem chunkWords_length (w : Nat) (hw : 0 < w) :
    ∀ (k : Nat) (bs : List Nat), bs.length = k * w → (chunkWords w bs).length = k :=
  fun k bs hbs => chunkWordsAux_length w hw k bs bs.length hbs (Nat.le_refl _)

/-- Splitting a list sum at an index. -/
theorem sum_split_at (l : List Nat) (t : Nat) (h : t < l.length) :
    (l.take t).sum + l.getD t 0 + (l.drop (t + 1)).sum = l.sum := by
  induction l generalizing t with
  | nil => simp at h
  | cons a l ih =>
    cases t with
    | zero => simp
    | succ t =>
      simp only [List.take_succ_cons, List.sum_cons, List.getD_cons_succ,
        List.drop_succ_cons]
      have := ih t (by simpa using h)
      omega

/-- Extracting a sub-slice out of a known slice of the stream data. -/
theorem slice_of_slice (D seg : List Nat) (off L a b : Nat)
    (hseg : (D.drop off).take L = seg) (hab : a + b ≤ L) :
    (D.drop (off + a)).take b = (seg.drop a).take b := by
  subst hseg
  rw [← List.drop_drop]
  generalize D.drop off = X
  rw [List.take_drop, List.take_drop, List.take_take, Nat.min_eq_left hab]

/-! ## C1: per-block element-width inference -/

/-- C1: for a block with `block_item_size = N × c` items-times-components and
declared leading length `L = size_check`, the decoder uses the narrow dtype
(4-byte `float32`/`uint32`) when `L = N·c·4`, otherwise the wide dtype
(8-byte `float64`/`uint64`) when `L = N·c·8`, and otherwise fails with the
invalid-block-size error; the narrow width is tried first.  `blockStep`
invokes `infer_block_fmt` afresh for each block index `i`, so the inference
is made independently per block. -/
theorem C1_width_inference (i sc bis : Nat) :
    infer_block_fmt sc bis (block_fmt i) (block_fmt_64 i) =
      if sc = bis * 4 then .ok (block_fmt i)
      else if sc = bis * 8 then .ok (block_fmt_64 i)
      else .error .invalidBlockSize := by
  simp only [infer_block_fmt, block_fmt_itemsize, block_fmt_64_itemsize,
    apply_ite Dtype.itemsize, ne_eq, ite_not]
  split_ifs <;> simp_all

/-! ## C10: out-of-range `single_type` is silently normalized to `-1` -/

/-- C10: any `single_type` outside `0..5` is treated exactly like `-1`:
no error, identical result. -/
theorem C10_out_of_range_single_type (s : ByteStream)
    (read_pos read_vel read_id read_mass : Bool) (st : Int) (lgadget : Bool)
    (h : st < 0 ∨ 5 < st) :
    read_gadget_snapshot s read_pos read_vel read_id read_mass st lgadget =
      read_gadget_snapshot s read_pos read_vel read_id read_mass (-1) lgadget := by
  unfold read_gadget_snapshot
  cases lgadget with
  | true => rfl
  | false =>
    have hnorm : (if (0 : Int) ≤ st ∧ st ≤ 5 then st else -1) =
        (if (0 : Int) ≤ -1 ∧ (-1 : Int) ≤ 5 then (-1 : Int) else -1) := by
      rw [if_neg (by omega), if_neg (by omega)]
    simp only [if_false, Bool.false_eq_true]
    rw [hnorm]

/-- Witness for C10 at `single_type = 6`. -/
theorem C10_witness :
    ((6 : Int) < 0 ∨ (5 : Int) < 6) ∧
      read_gadget_snapshot ⟨List.replicate 264 0, 0⟩ true false false false 6 false =
        read_gadget_snapshot ⟨List.replicate 264 0, 0⟩ true false false false (-1) false :=
  ⟨Or.inr (by norm_num),
   C10_out_of_range_single_type ⟨List.replicate 264 0, 0⟩ true false false false 6 false
     (Or.inr (by norm_num))⟩

/-! ## The no-attribute-block path (lines 61-76) -/

/-- Shared helper: with no block requested, the decoder decodes the header
(consuming the 4-byte leading marker plus the 196 packed bytes) and returns
the bare header, leaving the cursor at `p + 200` — before the 60 bytes of
header padding and the trailing marker. -/
theorem decode_noblocks (D : List Nat) (p : Nat) (st : Int) (lg : Bool)
    (hav : p + 200 ≤ D.length) :
    read_gadget_snapshot ⟨D, p⟩ false false false false st lg =
      .ok (.bareHeader (gadget_header_make
        (if lg then lgadget_remap (unpackHeader ((D.drop (p + 4)).take 196))
         else unpackHeader ((D.drop (p + 4)).take 196))), ⟨D, p + 200⟩) := by
  have hlen : ((D.drop (p + 4)).take 196).length = 196 :=
    take_drop_length D (p + 4) 196 (by omega)
  have h2 : p + 4 + 196 = p + 200 := by omega
  simp only [read_gadget_snapshot, ByteStream.seekCur,
    ByteStream.read_eq ⟨D, p + 4⟩ 196 (show p + 4 + 196 ≤ D.length by omega),
    hlen, h2, ne_eq, not_true_eq_false, if_false, List.any_cons, List.any_nil,
    id_eq, Bool.or_false, Bool.or_self, if_true]

/-! ## C2: corrected — the empty-request return value and stream position -/

set_option maxRecDepth 100000 in
/-- C2 counterexample: on a concrete 264-byte stream (one complete header
record) with no block requested, the decoder returns the bare header — not a
one-element tuple — and leaves the cursor at 200, inside the header record,
not at its end (264). -/
theorem C2_counterexample :
    ((read_gadget_snapshot ⟨List.replicate 264 0, 0⟩ false false false false (-1) false).map
        (fun x => match x.1 with
          | RetVal.tuple _ => true
          | RetVal.bareHeader _ => false) = .ok false)
    ∧ ((read_gadget_snapshot ⟨List.replicate 264 0, 0⟩ false false false false (-1) false).map
        (fun x => x.2.pos) = .ok 200)
    ∧ (200 : Nat) ≠ 264 :=
  ⟨by rfl, by rfl, by norm_num⟩

/-- C2 (amended): with no attribute block requested, `read_gadget_snapshot`
returns the bare decoded header (the namedtuple itself, not wrapped in a
one-element tuple), and the stream is left at `p + 200` — immediately after
the 196 packed header fields, before the header padding and the trailing
length marker (the full header record ends at `p + 264`). -/
theorem C2_no_request_returns_bare_header (D : List Nat) (p : Nat)
    (st : Int) (lg : Bool) (hav : p + 200 ≤ D.length) :
    read_gadget_snapshot ⟨D, p⟩ false false false false st lg =
      .ok (.bareHeader (gadget_header_make
        (if lg then lgadget_remap (unpackHeader ((D.drop (p + 4)).take 196))
         else unpackHeader ((D.drop (p + 4)).take 196))), ⟨D, p + 200⟩) :=
  decode_noblocks D p st lg hav

/-- Witness for the amended C2 on a concrete all-zero header record. -/
theorem C2_witness :
    (0 + 200 ≤ (List.replicate 264 (0 : Nat)).length)
    ∧ read_gadget_snapshot ⟨List.replicate 264 0, 0⟩ false false false false (-1) false =
        .ok (.bareHeader (gadget_header_make
          (if false then lgadget_remap (unpackHeader (((List.replicate 264 0).drop (0 + 4)).take 196))
           else unpackHeader (((List.replicate 264 0).drop (0 + 4)).take 196))),
          ⟨List.replicate 264 0, 0 + 200⟩) :=
  ⟨by simp only [List.length_replicate]; omega,
   C2_no_request_returns_bare_header (List.replicate 264 0) 0 (-1) false
     (by simp only [List.length_replicate]; omega)⟩

/-! ## C3: corrected — which header fields the lgadget mode remaps -/

set_option maxRecDepth 100000 in
/-- C3 counterexample: a concrete header whose `flag_entr_ics` word is 5,
`flag_cooling` word is 7, `npartTotal[2]` word is 9.  Decoding with
`lgadget = True` leaves `flag_entr_ics = 5` and `flag_cooling = 7` — neither
is cleared to zero as the claim states.  The fields actually remapped are
`npartTotal[2]` (cleared) and `NallHW[0..1]` (set to `0` and the old
`npartTotal[2]`). -/
theorem C3_counterexample :
    ((read_gadget_snapshot ⟨(((List.replicate 264 0).set 108 9).set 124 7).set 196 5, 0⟩
        false false false false (-1) true).map
        (fun x => match x.1 with
          | RetVal.bareHeader h =>
            some (h.flag_entr_ics, h.flag_cooling, h.npartTotal, h.NallHW)
          | RetVal.tuple _ => none)
      = .ok (some (5, 7, [0, 0, 0, 0, 0, 0], [0, 9, 0, 0, 0, 0])))
    ∧ (5 : Nat) ≠ 0 ∧ (7 : Nat) ≠ 0 :=
  ⟨by rfl, by norm_num, by norm_num⟩

/-- C3 (amended): with `lgadget = True` the decoded header agrees with the
plain decode of the same bytes on every field except that
`npartTotal[2]` is cleared to zero and `NallHW[0]`, `NallHW[1]` become `0`
and the plain decode's `npartTotal[2]`; the entropy-ICS and cooling flags
are untouched.  Additionally any caller-supplied `single_type` is overridden
to particle type 1. -/
theorem C3_lgadget_remapping (D : List Nat) (p : Nat) (st : Int)
    (hav : p + 200 ≤ D.length) :
    (read_gadget_snapshot ⟨D, p⟩ false false false false st true =
        .ok (.bareHeader (gadget_header_make
          (lgadget_remap (unpackHeader ((D.drop (p + 4)).take 196)))), ⟨D, p + 200⟩))
    ∧ (read_gadget_snapshot ⟨D, p⟩ false false false false st false =
        .ok (.bareHeader (gadget_header_make
          (unpackHeader ((D.drop (p + 4)).take 196))), ⟨D, p + 200⟩))
    ∧ (let H := gadget_header_make (unpackHeader ((D.drop (p + 4)).take 196));
       let H' := gadget_header_make
         (lgadget_remap (unpackHeader ((D.drop (p + 4)).take 196)));
       H'.npart = H.npart ∧ H'.mass = H.mass ∧ H'.time = H.time
       ∧ H'.redshift = H.redshift ∧ H'.flag_sfr = H.flag_sfr
       ∧ H'.flag_feedback = H.flag_feedback
       ∧ H'.npartTotal = H.npartTotal.set 2 0
       ∧ H'.flag_cooling = H.flag_cooling ∧ H'.num_files = H.num_files
       ∧ H'.BoxSize = H.BoxSize ∧ H'.Omega0 = H.Omega0
       ∧ H'.OmegaLambda = H.OmegaLambda ∧ H'.HubbleParam = H.HubbleParam
       ∧ H'.flag_age = H.flag_age ∧ H'.flag_metals = H.flag_metals
       ∧ H'.NallHW = 0 :: H.npartTotal.getD 2 0 :: H.NallHW.drop 2
       ∧ H'.flag_entr_ics = H.flag_entr_ics)
    ∧ (∀ (s : ByteStream) (r1 r2 r3 r4 : Bool) (st' : Int),
        read_gadget_snapshot s r1 r2 r3 r4 st' true =
          read_gadget_snapshot s r1 r2 r3 r4 1 true) := by
  refine ⟨decode_noblocks D p st true hav, decode_noblocks D p st false hav,
    ⟨rfl, rfl, rfl, rfl, rfl, rfl, rfl, rfl, rfl, rfl, rfl, rfl, rfl, rfl, rfl,
     rfl, rfl⟩, ?_⟩
  intro s r1 r2 r3 r4 st'
  rfl

set_option maxRecDepth 100000 in
/-- Witness for the amended C3 on the same concrete header bytes. -/
theorem C3_witness :
    (0 + 200 ≤ ((((List.replicate 264 (0 : Nat)).set 108 9).set 124 7).set 196 5).length)
    ∧ (read_gadget_snapshot ⟨(((List.replicate 264 0).set 108 9).set 124 7).set 196 5, 0⟩
        false false false false (-1) true =
        .ok (.bareHeader (gadget_header_make (lgadget_remap (unpackHeader
          ((((((List.replicate 264 0).set 108 9).set 124 7).set 196 5).drop (0 + 4)).take 196)))),
          ⟨(((List.replicate 264 0).set 108 9).set 124 7).set 196 5, 0 + 200⟩)) :=
  ⟨by simp only [List.length_set, List.length_replicate]; omega,
   (C3_lgadget_remapping ((((List.replicate 264 0).set 108 9).set 124 7).set 196 5) 0 (-1)
     (by simp only [List.length_set, List.length_replicate]; omega)).1⟩

/-! ## Reduction of the decoder to the block walk -/

/-- When at least one block is requested and the header bytes are available,
the decoder reduces to `blockLoop` started at `p + 264` (after the header
record) with `ret = [header]`. -/
theorem decode_reaches_loop (D : List Nat) (p : Nat)
    (r1 r2 r3 r4 : Bool) (st st' : Int) (lg : Bool) (hdr : gadget_header)
    (hav : p + 200 ≤ D.length)
    (hreq : (r1 || (r2 || (r3 || r4))) = true)
    (hhdr : hdr = gadget_header_make
      (if lg then lgadget_remap (unpackHeader ((D.drop (p + 4)).take 196))
       else unpackHeader ((D.drop (p + 4)).take 196)))
    (hst : st' = if 0 ≤ (if lg then 1 else st) ∧ (if lg then 1 else st) ≤ 5
      then (if lg then 1 else st) else -1) :
    read_gadget_snapshot ⟨D, p⟩ r1 r2 r3 r4 st lg =
      (match blockLoop hdr.npart
           (List.zipWith (fun m n => if floatIsZero m then n else 0)
             hdr.mass hdr.npart)
           st'
           [(0, r1), (1, r2), (2, r3), (3, r4)] ⟨D, p + 264⟩
           [RetItem.header hdr] with
       | .error e => .error e
       | .ok (ret, s4) => .ok (.tuple ret, s4)) := by
  subst hhdr hst
  have hlen : ((D.drop (p + 4)).take 196).length = 196 :=
    take_drop_length D (p + 4) 196 (by omega)
  have h2 : p + 4 + 196 = p + 200 := by omega
  have h3 : p + 200 + (256 - 196) + 4 = p + 264 := by norm_num
  have henum : ([r1, r2, r3, r4] : List Bool).enum =
      [(0, r1), (1, r2), (2, r3), (3, r4)] := rfl
  simp only [read_gadget_snapshot, ByteStream.seekCur,
    ByteStream.read_eq ⟨D, p + 4⟩ 196 (show p + 4 + 196 ≤ D.length by omega),
    hlen, h2, h3, henum, ne_eq, not_true_eq_false, if_false,
    List.any_cons, List.any_nil, id_eq, Bool.or_false, hreq,
    Bool.true_eq_false]

/-! ## Behaviour of one block iteration -/

/-- Empty mass block (lines 96-99): appended without any stream access and
the walk stops, whatever `b` and `more` are. -/
theorem blockStep_massEmpty (npartH massNpart : List Nat) (st : Int)
    (b more : Bool) (s : ByteStream) (hsum : massNpart.sum = 0) :
    blockStep npartH massNpart st 3 b more s =
      .ok (some ⟨.f32, [], none⟩, s, true) := by
  simp [blockStep, hsum]

/-- The 4-byte size read fails with `struct.error` when fewer than 4 bytes
remain. -/
theorem blockStep_marker_short (npartH massNpart : List Nat) (st : Int)
    (i : Nat) (b more : Bool) (s : ByteStream)
    (hmass : ¬(i = 3 ∧ massNpart.sum = 0))
    (hshort : s.data.length < s.pos + 4) :
    blockStep npartH massNpart st i b more s = .error .structError := by
  have hlen : ¬((s.data.drop s.pos).take 4).length = 4 := by
    simp only [List.length_take, List.length_drop]
    omega
  simp only [blockStep, if_neg hmass, ByteStream.read, ne_eq]
  rw [if_pos hlen]

/-- If the declared length matches neither candidate width, the step fails
with the (context-free) invalid-block-size error. -/
theorem blockStep_invalid (npartH massNpart : List Nat) (st : Int)
    (i : Nat) (b more : Bool) (s : ByteStream) (e : DecodeError)
    (hmass : ¬(i = 3 ∧ massNpart.sum = 0))
    (hav : s.pos + 4 ≤ s.data.length)
    (hinf : infer_block_fmt (decodeLE ((s.data.drop s.pos).take 4))
        (block_item_per_part i * (if i = 3 then massNpart else npartH).sum)
        (block_fmt i) (block_fmt_64 i) = .error e) :
    blockStep npartH massNpart st i b more s = .error e := by
  have hlen : ((s.data.drop s.pos).take 4).length = 4 :=
    take_drop_length s.data s.pos 4 hav
  simp only [blockStep, if_neg hmass, ByteStream.read_eq s 4 hav, hlen,
    ne_eq, not_true_eq_false, if_false, hinf]

/-- Skip branch (line 112 then line 127): marker read, payload seek,
trailing-marker seek; nothing appended, no break. -/
theorem blockStep_skip (npartH massNpart : List Nat) (st : Int) (i : Nat)
    (more : Bool) (s : ByteStream) (fmt : Dtype)
    (hmass : ¬(i = 3 ∧ massNpart.sum = 0))
    (hav : s.pos + 4 ≤ s.data.length)
    (hinf : infer_block_fmt (decodeLE ((s.data.drop s.pos).take 4))
        (block_item_per_part i * (if i = 3 then massNpart else npartH).sum)
        (block_fmt i) (block_fmt_64 i) = .ok fmt) :
    blockStep npartH massNpart st i false more s =
      .ok (none, ⟨s.data, s.pos + 4 +
        (if i = 3 then massNpart else npartH).sum *
          (block_item_per_part i * fmt.itemsize) + 4⟩, false) := by
  have hlen : ((s.data.drop s.pos).take 4).length = 4 :=
    take_drop_length s.data s.pos 4 hav
  simp only [blockStep, if_neg hmass, ByteStream.read_eq s 4 hav, hlen,
    ne_eq, not_true_eq_false, if_false, hinf, ByteStream.seekCur]
  rw [if_pos trivial]

/-- Full materialize (lines 114-127) with `single_type = -1` and a later
requested block: payload read, reshaped, trailing marker consumed. -/
theorem blockStep_read_full_cont (npartH massNpart np : List Nat) (st : Int)
    (i : Nat) (s : ByteStream) (fmt : Dtype)
    (hnp : np = if i = 3 then massNpart else npartH)
    (hmass : ¬(i = 3 ∧ massNpart.sum = 0))
    (hst : ¬((-1 : Int) < st))
    (hav : s.pos + 4 + np.sum * (block_item_per_part i * fmt.itemsize) ≤
      s.data.length)
    (hinf : infer_block_fmt (decodeLE ((s.data.drop s.pos).take 4))
        (block_item_per_part i * np.sum)
        (block_fmt i) (block_fmt_64 i) = .ok fmt) :
    blockStep npartH massNpart st i true true s =
      .ok (some ⟨fmt,
          chunkWords fmt.itemsize ((s.data.drop (s.pos + 4)).take
            (np.sum * (block_item_per_part i * fmt.itemsize))),
          if 1 < block_item_per_part i then some (np.sum, block_item_per_part i)
          else none⟩,
        ⟨s.data,
         s.pos + 4 + np.sum * (block_item_per_part i * fmt.itemsize) + 4⟩,
        false) := by
  subst hnp
  have hw : 0 < fmt.itemsize := Dtype.itemsize_pos fmt
  have hlen : ((s.data.drop s.pos).take 4).length = 4 :=
    take_drop_length s.data s.pos 4 (by omega)
  have hdb : ((s.data.drop (s.pos + 4)).take
      ((if i = 3 then massNpart else npartH).sum *
        (block_item_per_part i * fmt.itemsize))).length =
      (if i = 3 then massNpart else npartH).sum *
        (block_item_per_part i * fmt.itemsize) :=
    take_drop_length _ _ _ (by omega)
  have hmod : ((if i = 3 then massNpart else npartH).sum *
      (block_item_per_part i * fmt.itemsize)) % fmt.itemsize = 0 := by
    rw [← Nat.mul_assoc]
    exact Nat.mul_mod_left _ _
  have hchunk : (chunkWords fmt.itemsize ((s.data.drop (s.pos + 4)).take
      ((if i = 3 then massNpart else npartH).sum *
        (block_item_per_part i * fmt.itemsize)))).length =
      (if i = 3 then massNpart else npartH).sum * block_item_per_part i := by
    refine chunkWords_length fmt.itemsize hw _ _ ?_
    rw [hdb, Nat.mul_assoc]
  simp only [blockStep, if_neg hmass, ByteStream.read_eq s 4 (by omega), hlen,
    ne_eq, not_true_eq_false, if_false, hinf, ByteStream.seekCur,
    if_neg hst,
    ByteStream.read_eq ⟨s.data, s.pos + 4⟩
      ((if i = 3 then massNpart else npartH).sum *
        (block_item_per_part i * fmt.itemsize))
      (show s.pos + 4 + (if i = 3 then massNpart else npartH).sum *
          (block_item_per_part i * fmt.itemsize) ≤ s.data.length by omega),
    hdb, hmod, hchunk, not_false_eq_true, if_true, and_false,
    Bool.true_eq_false]

/-- Full materialize with no later requested block: the early stop (lines
123-124) breaks before the tail seek and before the trailing marker. -/
theorem blockStep_read_full_last (npartH massNpart np : List Nat) (st : Int)
    (i : Nat) (s : ByteStream) (fmt : Dtype)
    (hnp : np = if i = 3 then massNpart else npartH)
    (hmass : ¬(i = 3 ∧ massNpart.sum = 0))
    (hst : ¬((-1 : Int) < st))
    (hav : s.pos + 4 + np.sum * (block_item_per_part i * fmt.itemsize) ≤
      s.data.length)
    (hinf : infer_block_fmt (decodeLE ((s.data.drop s.pos).take 4))
        (block_item_per_part i * np.sum)
        (block_fmt i) (block_fmt_64 i) = .ok fmt) :
    blockStep npartH massNpart st i true false s =
      .ok (some ⟨fmt,
          chunkWords fmt.itemsize ((s.data.drop (s.pos + 4)).take
            (np.sum * (block_item_per_part i * fmt.itemsize))),
          if 1 < block_item_per_part i then some (np.sum, block_item_per_part i)
          else none⟩,
        ⟨s.data, s.pos + 4 + np.sum * (block_item_per_part i * fmt.itemsize)⟩,
        true) := by
  subst hnp
  have hw : 0 < fmt.itemsize := Dtype.itemsize_pos fmt
  have hlen : ((s.data.drop s.pos).take 4).length = 4 :=
    take_drop_length s.data s.pos 4 (by omega)
  have hdb : ((s.data.drop (s.pos + 4)).take
      ((if i = 3 then massNpart else npartH).sum *
        (block_item_per_part i * fmt.itemsize))).length =
      (if i = 3 then massNpart else npartH).sum *
        (block_item_per_part i * fmt.itemsize) :=
    take_drop_length _ _ _ (by omega)
  have hmod : ((if i = 3 then massNpart else npartH).sum *
      (block_item_per_part i * fmt.itemsize)) % fmt.itemsize = 0 := by
    rw [← Nat.mul_assoc]
    exact Nat.mul_mod_left _ _
  have hchunk : (chunkWords fmt.itemsize ((s.data.drop (s.pos + 4)).take
      ((if i = 3 then massNpart else npartH).sum *
        (block_item_per_part i * fmt.itemsize)))).length =
      (if i = 3 then massNpart else npartH).sum * block_item_per_part i := by
    refine chunkWords_length fmt.itemsize hw _ _ ?_
    rw [hdb, Nat.mul_assoc]
  simp only [blockStep, if_neg hmass, ByteStream.read_eq s 4 (by omega), hlen,
    ne_eq, not_true_eq_false, if_false, hinf, ByteStream.seekCur,
    if_neg hst,
    ByteStream.read_eq ⟨s.data, s.pos + 4⟩
      ((if i = 3 then massNpart else npartH).sum *
        (block_item_per_part i * fmt.itemsize))
      (show s.pos + 4 + (if i = 3 then massNpart else npartH).sum *
          (block_item_per_part i * fmt.itemsize) ≤ s.data.length by omega),
    hdb, hmod, hchunk, not_false_eq_true, if_true, and_false,
    Bool.true_eq_false, eq_self_iff_true]

/-- Single-type materialize (lines 114-126) with a later requested block:
seek past the earlier types, read type `st`'s items, seek past the later
types, consume the trailing marker. -/
theorem blockStep_read_single_cont (npartH massNpart np : List Nat) (st : Int)
    (i : Nat) (s : ByteStream) (fmt : Dtype)
    (hnp : np = if i = 3 then massNpart else npartH)
    (hmass : ¬(i = 3 ∧ massNpart.sum = 0))
    (hst : (-1 : Int) < st)
    (hav : s.pos + 4 + (np.take st.toNat).sum *
        (block_item_per_part i * fmt.itemsize) +
        np.getD st.toNat 0 * (block_item_per_part i * fmt.itemsize) ≤
      s.data.length)
    (hinf : infer_block_fmt (decodeLE ((s.data.drop s.pos).take 4))
        (block_item_per_part i * np.sum)
        (block_fmt i) (block_fmt_64 i) = .ok fmt) :
    blockStep npartH massNpart st i true true s =
      .ok (some ⟨fmt,
          chunkWords fmt.itemsize ((s.data.drop
            (s.pos + 4 + (np.take st.toNat).sum *
              (block_item_per_part i * fmt.itemsize))).take
            (np.getD st.toNat 0 * (block_item_per_part i * fmt.itemsize))),
          if 1 < block_item_per_part i
          then some (np.getD st.toNat 0, block_item_per_part i) else none⟩,
        ⟨s.data,
         s.pos + 4 + (np.take st.toNat).sum *
             (block_item_per_part i * fmt.itemsize) +
           np.getD st.toNat 0 * (block_item_per_part i * fmt.itemsize) +
           (np.drop (st.toNat + 1)).sum * (block_item_per_part i * fmt.itemsize) +
           4⟩,
        false) := by
  subst hnp
  have hw : 0 < fmt.itemsize := Dtype.itemsize_pos fmt
  have hlen : ((s.data.drop s.pos).take 4).length = 4 :=
    take_drop_length s.data s.pos 4 (by omega)
  have hdb : ((s.data.drop
      (s.pos + 4 + ((if i = 3 then massNpart else npartH).take st.toNat).sum *
        (block_item_per_part i * fmt.itemsize))).take
      ((if i = 3 then massNpart else npartH).getD st.toNat 0 *
        (block_item_per_part i * fmt.itemsize))).length =
      (if i = 3 then massNpart else npartH).getD st.toNat 0 *
        (block_item_per_part i * fmt.itemsize) :=
    take_drop_length _ _ _ (by omega)
  have hmod : ((if i = 3 then massNpart else npartH).getD st.toNat 0 *
      (block_item_per_part i * fmt.itemsize)) % fmt.itemsize = 0 := by
    rw [← Nat.mul_assoc]
    exact Nat.mul_mod_left _ _
  have hchunk : (chunkWords fmt.itemsize ((s.data.drop
      (s.pos + 4 + ((if i = 3 then massNpart else npartH).take st.toNat).sum *
        (block_item_per_part i * fmt.itemsize))).take
      ((if i = 3 then massNpart else npartH).getD st.toNat 0 *
        (block_item_per_part i * fmt.itemsize)))).length =
      (if i = 3 then massNpart else npartH).getD st.toNat 0 *
        block_item_per_part i := by
    refine chunkWords_length fmt.itemsize hw _ _ ?_
    rw [hdb, Nat.mul_assoc]
  simp only [blockStep, if_neg hmass, ByteStream.read_eq s 4 (by omega), hlen,
    ne_eq, not_true_eq_false, if_false, hinf, ByteStream.seekCur,
    if_pos hst,
    ByteStream.read_eq ⟨s.data,
        s.pos + 4 + ((if i = 3 then massNpart else npartH).take st.toNat).sum *
          (block_item_per_part i * fmt.itemsize)⟩
      ((if i = 3 then massNpart else npartH).getD st.toNat 0 *
        (block_item_per_part i * fmt.itemsize))
      (show s.pos + 4 +
          ((if i = 3 then massNpart else npartH).take st.toNat).sum *
            (block_item_per_part i * fmt.itemsize) +
          (if i = 3 then massNpart else npartH).getD st.toNat 0 *
            (block_item_per_part i * fmt.itemsize) ≤ s.data.length by omega),
    hdb, hmod, hchunk, not_false_eq_true, if_true, and_false,
    Bool.true_eq_false, eq_self_iff_true]

/-- Single-type materialize with no later requested block: the early stop
breaks before the tail seek and the trailing marker, leaving the cursor
immediately after type `st`'s items. -/
theorem blockStep_read_single_last (npartH massNpart np : List Nat) (st : Int)
    (i : Nat) (s : ByteStream) (fmt : Dtype)
    (hnp : np = if i = 3 then massNpart else npartH)
    (hmass : ¬(i = 3 ∧ massNpart.sum = 0))
    (hst : (-1 : Int) < st)
    (hav : s.pos + 4 + (np.take st.toNat).sum *
        (block_item_per_part i * fmt.itemsize) +
        np.getD st.toNat 0 * (block_item_per_part i * fmt.itemsize) ≤
      s.data.length)
    (hinf : infer_block_fmt (decodeLE ((s.data.drop s.pos).take 4))
        (block_item_per_part i * np.sum)
        (block_fmt i) (block_fmt_64 i) = .ok fmt) :
    blockStep npartH massNpart st i true false s =
      .ok (some ⟨fmt,
          chunkWords fmt.itemsize ((s.data.drop
            (s.pos + 4 + (np.take st.toNat).sum *
              (block_item_per_part i * fmt.itemsize))).take
            (np.getD st.toNat 0 * (block_item_per_part i * fmt.itemsize))),
          if 1 < block_item_per_part i
          then some (np.getD st.toNat 0, block_item_per_part i) else none⟩,
        ⟨s.data,
         s.pos + 4 + (np.take st.toNat).sum *
             (block_item_per_part i * fmt.itemsize) +
           np.getD st.toNat 0 * (block_item_per_part i * fmt.itemsize)⟩,
        true) := by
  subst hnp
  have hw : 0 < fmt.itemsize := Dtype.itemsize_pos fmt
  have hlen : ((s.data.drop s.pos).take 4).length = 4 :=
    take_drop_length s.data s.pos 4 (by omega)
  have hdb : ((s.data.drop
      (s.pos + 4 + ((if i = 3 then massNpart else npartH).take st.toNat).sum *
        (block_item_per_part i * fmt.itemsize))).take
      ((if i = 3 then massNpart else npartH).getD st.toNat 0 *
        (block_item_per_part i * fmt.itemsize))).length =
      (if i = 3 then massNpart else npartH).getD st.toNat 0 *
        (block_item_per_part i * fmt.itemsize) :=
    take_drop_length _ _ _ (by omega)
  have hmod : ((if i = 3 then massNpart else npartH).getD st.toNat 0 *
      (block_item_per_part i * fmt.itemsize)) % fmt.itemsize = 0 := by
    rw [← Nat.mul_assoc]
    exact Nat.mul_mod_left _ _
  have hchunk : (chunkWords fmt.itemsize ((s.data.drop
      (s.pos + 4 + ((if i = 3 then massNpart else npartH).take st.toNat).sum *
        (block_item_per_part i * fmt.itemsize))).take
      ((if i = 3 then massNpart else npartH).getD st.toNat 0 *
        (block_item_per_part i * fmt.itemsize)))).length =
      (if i = 3 then massNpart else npartH).getD st.toNat 0 *
        block_item_per_part i := by
    refine chunkWords_length fmt.itemsize hw _ _ ?_
    rw [hdb, Nat.mul_assoc]
  simp only [blockStep, if_neg hmass, ByteStream.read_eq s 4 (by omega), hlen,
    ne_eq, not_true_eq_false, if_false, hinf, ByteStream.seekCur,
    if_pos hst,
    ByteStream.read_eq ⟨s.data,
        s.pos + 4 + ((if i = 3 then massNpart else npartH).take st.toNat).sum *
          (block_item_per_part i * fmt.itemsize)⟩
      ((if i = 3 then massNpart else npartH).getD st.toNat 0 *
        (block_item_per_part i * fmt.itemsize))
      (show s.pos + 4 +
          ((if i = 3 then massNpart else npartH).take st.toNat).sum *
            (block_item_per_part i * fmt.itemsize) +
          (if i = 3 then massNpart else npartH).getD st.toNat 0 *
            (block_item_per_part i * fmt.itemsize) ≤ s.data.length by omega),
    hdb, hmod, hchunk, not_false_eq_true, if_true, and_false,
    Bool.true_eq_false, eq_self_iff_true]

/-! ## Unfolding the block walk one step at a time -/

theorem blockLoop_cons_cont (npartH massNpart : List Nat) (st : Int)
    (i : Nat) (b : Bool) (rest : List (Nat × Bool)) (s s' : ByteStream)
    (ret : List RetItem) (item? : Option NpArray)
    (h : blockStep npartH massNpart st i b (rest.any (fun x => x.2)) s =
      .ok (item?, s', false)) :
    blockLoop npartH massNpart st ((i, b) :: rest) s ret =
      blockLoop npartH massNpart st rest s'
        (match item? with
         | some a => ret ++ [RetItem.arr a]
         | none => ret) := by
  simp only [blockLoop, h, Bool.false_eq_true, if_false]
  cases item? <;> rfl

theorem blockLoop_cons_break (npartH massNpart : List Nat) (st : Int)
    (i : Nat) (b : Bool) (rest : List (Nat × Bool)) (s s' : ByteStream)
    (ret : List RetItem) (item? : Option NpArray)
    (h : blockStep npartH massNpart st i b (rest.any (fun x => x.2)) s =
      .ok (item?, s', true)) :
    blockLoop npartH massNpart st ((i, b) :: rest) s ret =
      .ok ((match item? with
            | some a => ret ++ [RetItem.arr a]
            | none => ret), s') := by
  simp only [blockLoop, h, if_true]
  cases item? <;> rfl

theorem blockLoop_cons_error (npartH massNpart : List Nat) (st : Int)
    (i : Nat) (b : Bool) (rest : List (Nat × Bool)) (s : ByteStream)
    (ret : List RetItem) (e : DecodeError)
    (h : blockStep npartH massNpart st i b (rest.any (fun x => x.2)) s =
      .error e) :
    blockLoop npartH massNpart st ((i, b) :: rest) s ret = .error e := by
  simp only [blockLoop, h]

/-! ## C6: skip-equivalence -/

/-- C6: when a later block is still requested (so the walk continues to the
next record's leading marker), skipping a block (`materialize = false`,
line 112) and reading it (`materialize = true`, lines 114-126) advance the
stream by exactly the same number of bytes: marker + payload + trailing
marker.  This holds for every block index `i`, every (normalized)
`single_type ≤ 5` and both inferred widths. -/
theorem C6_skip_equivalence (npartH massNpart np : List Nat) (st : Int)
    (i : Nat) (s : ByteStream) (fmt : Dtype)
    (hnp : np = if i = 3 then massNpart else npartH)
    (hnp6 : np.length = 6)
    (hst : st ≤ 5)
    (hmass : ¬(i = 3 ∧ massNpart.sum = 0))
    (hav : s.pos + 4 + np.sum * (block_item_per_part i * fmt.itemsize) ≤
      s.data.length)
    (hinf : infer_block_fmt (decodeLE ((s.data.drop s.pos).take 4))
        (block_item_per_part i * np.sum)
        (block_fmt i) (block_fmt_64 i) = .ok fmt) :
    ((blockStep npartH massNpart st i false true s).map (fun x => x.2.1.pos) =
      .ok (s.pos + 4 + np.sum * (block_item_per_part i * fmt.itemsize) + 4))
    ∧ ((blockStep npartH massNpart st i true true s).map (fun x => x.2.1.pos) =
      .ok (s.pos + 4 + np.sum * (block_item_per_part i * fmt.itemsize) + 4)) := by
  have hinf' : infer_block_fmt (decodeLE ((s.data.drop s.pos).take 4))
      (block_item_per_part i * (if i = 3 then massNpart else npartH).sum)
      (block_fmt i) (block_fmt_64 i) = .ok fmt := by rw [← hnp]; exact hinf
  constructor
  · rw [blockStep_skip npartH massNpart st i true s fmt hmass (by omega) hinf']
    simp only [Except.map, hnp]
  · rcases lt_or_le (-1 : Int) st with hpos | hneg
    · have ht6 : st.toNat < np.length := by omega
      have hsplit := sum_split_at np st.toNat ht6
      have havs : s.pos + 4 +
          (np.take st.toNat).sum * (block_item_per_part i * fmt.itemsize) +
          np.getD st.toNat 0 * (block_item_per_part i * fmt.itemsize) ≤
          s.data.length := by
        have hle : ((np.take st.toNat).sum + np.getD st.toNat 0) *
            (block_item_per_part i * fmt.itemsize) ≤
            np.sum * (block_item_per_part i * fmt.itemsize) :=
          Nat.mul_le_mul_right _ (by omega)
        rw [Nat.add_mul] at hle
        omega
      rw [blockStep_read_single_cont npartH massNpart np st i s fmt hnp hmass
        hpos havs hinf]
      simp only [Except.map]
      have : (np.take st.toNat).sum * (block_item_per_part i * fmt.itemsize) +
          np.getD st.toNat 0 * (block_item_per_part i * fmt.itemsize) +
          (np.drop (st.toNat + 1)).sum * (block_item_per_part i * fmt.itemsize) =
          np.sum * (block_item_per_part i * fmt.itemsize) := by
        rw [← hsplit, Nat.add_mul, Nat.add_mul]
      rw [show s.pos + 4 +
          (np.take st.toNat).sum * (block_item_per_part i * fmt.itemsize) +
          np.getD st.toNat 0 * (block_item_per_part i * fmt.itemsize) +
          (np.drop (st.toNat + 1)).sum * (block_item_per_part i * fmt.itemsize) +
          4 = s.pos + 4 + np.sum * (block_item_per_part i * fmt.itemsize) + 4
        by omega]
    · rw [blockStep_read_full_cont npartH massNpart np st i s fmt hnp hmass
        (by omega) hav hinf]
      simp only [Except.map]

/-- Witness for C6 on a concrete one-particle position record. -/
theorem C6_witness :
    ((blockStep [1, 0, 0, 0, 0, 0] [1, 0, 0, 0, 0, 0] (-1) 0 false true
        ⟨[12, 0, 0, 0] ++ List.replicate 12 0 ++ [0, 0, 0, 0], 0⟩).map
        (fun x => x.2.1.pos) =
      .ok (0 + 4 + List.sum [1, 0, 0, 0, 0, 0] *
        (block_item_per_part 0 * Dtype.itemsize .f32) + 4))
    ∧ ((blockStep [1, 0, 0, 0, 0, 0] [1, 0, 0, 0, 0, 0] (-1) 0 true true
        ⟨[12, 0, 0, 0] ++ List.replicate 12 0 ++ [0, 0, 0, 0], 0⟩).map
        (fun x => x.2.1.pos) =
      .ok (0 + 4 + List.sum [1, 0, 0, 0, 0, 0] *
        (block_item_per_part 0 * Dtype.itemsize .f32) + 4)) :=
  C6_skip_equivalence [1, 0, 0, 0, 0, 0] [1, 0, 0, 0, 0, 0] [1, 0, 0, 0, 0, 0]
    (-1) 0 ⟨[12, 0, 0, 0] ++ List.replicate 12 0 ++ [0, 0, 0, 0], 0⟩ .f32
    (by norm_num) (by norm_num) (by norm_num) (by norm_num)
    (by decide) (by rfl)

/-! ## C5: corrected — single-type reads -/

/-- Concrete stream for the C5 counterexample: header with
`npart = (5, 7, 0, 0, 0, 0)` followed by one position record
(marker 144, 144 payload bytes). -/
def c5stream : List Nat :=
  List.replicate 4 0 ++
    ([5, 0, 0, 0] ++ [7, 0, 0, 0] ++ List.replicate 188 0) ++
    List.replicate 60 0 ++ List.replicate 4 0 ++
    [144, 0, 0, 0] ++ List.replicate 144 0

set_option maxRecDepth 1000000 in
/-- C5 counterexample: with counts `(5, 7)` and `single_type = 0` on a
position-only request, the decoder returns the 5 type-0 triples but — the
position block being the last requested one — breaks before the tail seek,
leaving the cursor at 328, while the full read of the same block ends at
412.  The claim that the stream always ends at the same trailing-marker
position as a full read is therefore false. -/
theorem C5_counterexample :
    ((read_gadget_snapshot ⟨c5stream, 0⟩ true false false false 0 false).map
        (fun x => ((match x.1 with
          | RetVal.tuple [_, RetItem.arr a] => some (a.elems.length, a.shape2)
          | _ => none), x.2.pos))
      = .ok (some (15, some (5, 3)), 328))
    ∧ ((read_gadget_snapshot ⟨c5stream, 0⟩ true false false false (-1) false).map
        (fun x => x.2.pos) = .ok 412)
    ∧ (328 : Nat) ≠ 412 :=
  ⟨by rfl, by rfl, by norm_num⟩

/-- C5 (amended): materializing a block with single-type selector
`t = st ∈ 0..5` always yields exactly `item_count_by_type[t]` items
(`npart[t] × components` element words, shaped `(npart[t], components)` when
components > 1).  When a later block is still requested, the tail types are
then skipped and the trailing marker consumed, so the stream ends exactly
where a full read (`single_type = -1`) of the block ends.  When the block is
the last requested one, the early stop skips the tail seek and trailing
marker and the stream is left immediately after type `t`'s items. -/
theorem C5_single_type_read (npartH massNpart np : List Nat) (st : Int)
    (i : Nat) (s : ByteStream) (fmt : Dtype)
    (hnp : np = if i = 3 then massNpart else npartH)
    (hnp6 : np.length = 6)
    (hst0 : (-1 : Int) < st) (hst5 : st ≤ 5)
    (hmass : ¬(i = 3 ∧ massNpart.sum = 0))
    (hav : s.pos + 4 + np.sum * (block_item_per_part i * fmt.itemsize) ≤
      s.data.length)
    (hinf : infer_block_fmt (decodeLE ((s.data.drop s.pos).take 4))
        (block_item_per_part i * np.sum)
        (block_fmt i) (block_fmt_64 i) = .ok fmt) :
    ((blockStep npartH massNpart st i true true s).map
        (fun x => (x.1.map (fun a => (a.elems.length, a.shape2)), x.2.1.pos)) =
      .ok (some (np.getD st.toNat 0 * block_item_per_part i,
          if 1 < block_item_per_part i
          then some (np.getD st.toNat 0, block_item_per_part i) else none),
        s.pos + 4 + np.sum * (block_item_per_part i * fmt.itemsize) + 4))
    ∧ ((blockStep npartH massNpart (-1) i true true s).map (fun x => x.2.1.pos) =
      .ok (s.pos + 4 + np.sum * (block_item_per_part i * fmt.itemsize) + 4))
    ∧ ((blockStep npartH massNpart st i true false s).map
        (fun x => (x.1.map (fun a => (a.elems.length, a.shape2)), x.2.1.pos)) =
      .ok (some (np.getD st.toNat 0 * block_item_per_part i,
          if 1 < block_item_per_part i
          then some (np.getD st.toNat 0, block_item_per_part i) else none),
        s.pos + 4 + (np.take st.toNat).sum * (block_item_per_part i * fmt.itemsize)
          + np.getD st.toNat 0 * (block_item_per_part i * fmt.itemsize))) := by
  have ht6 : st.toNat < np.length := by omega
  have hsplit := sum_split_at np st.toNat ht6
  have havs : s.pos + 4 +
      (np.take st.toNat).sum * (block_item_per_part i * fmt.itemsize) +
      np.getD st.toNat 0 * (block_item_per_part i * fmt.itemsize) ≤
      s.data.length := by
    have hle : ((np.take st.toNat).sum + np.getD st.toNat 0) *
        (block_item_per_part i * fmt.itemsize) ≤
        np.sum * (block_item_per_part i * fmt.itemsize) :=
      Nat.mul_le_mul_right _ (by omega)
    rw [Nat.add_mul] at hle
    omega
  have hw : 0 < fmt.itemsize := Dtype.itemsize_pos fmt
  have hchunk : (chunkWords fmt.itemsize ((s.data.drop
      (s.pos + 4 + (np.take st.toNat).sum *
        (block_item_per_part i * fmt.itemsize))).take
      (np.getD st.toNat 0 * (block_item_per_part i * fmt.itemsize)))).length =
      np.getD st.toNat 0 * block_item_per_part i := by
    refine chunkWords_length fmt.itemsize hw _ _ ?_
    rw [take_drop_length _ _ _ (by omega), Nat.mul_assoc]
  have hpos : s.pos + 4 +
      (np.take st.toNat).sum * (block_item_per_part i * fmt.itemsize) +
      np.getD st.toNat 0 * (block_item_per_part i * fmt.itemsize) +
      (np.drop (st.toNat + 1)).sum * (block_item_per_part i * fmt.itemsize) + 4 =
      s.pos + 4 + np.sum * (block_item_per_part i * fmt.itemsize) + 4 := by
    have : (np.take st.toNat).sum * (block_item_per_part i * fmt.itemsize) +
        np.getD st.toNat 0 * (block_item_per_part i * fmt.itemsize) +
        (np.drop (st.toNat + 1)).sum * (block_item_per_part i * fmt.itemsize) =
        np.sum * (block_item_per_part i * fmt.itemsize) := by
      rw [← hsplit, Nat.add_mul, Nat.add_mul]
    omega
  refine ⟨?_, ?_, ?_⟩
  · rw [blockStep_read_single_cont npartH massNpart np st i s fmt hnp hmass
      hst0 havs hinf]
    simp only [Except.map, Option.map_some', hchunk, hpos]
  · rw [blockStep_read_full_cont npartH massNpart np (-1) i s fmt hnp hmass
      (by omega) hav hinf]
    simp only [Except.map]
  · rw [blockStep_read_single_last npartH massNpart np st i s fmt hnp hmass
      hst0 havs hinf]
    simp only [Except.map, Option.map_some', hchunk]

set_option maxRecDepth 1000000 in
/-- Witness for the amended C5: a position block over counts
`(5, 7, 0, 0, 0, 0)` with `single_type = 1`. -/
theorem C5_witness :
    ((blockStep [5, 7, 0, 0, 0, 0] [5, 7, 0, 0, 0, 0] 1 0 true true
        ⟨[144, 0, 0, 0] ++ List.replicate 144 3, 0⟩).map
        (fun x => (x.1.map (fun a => (a.elems.length, a.shape2)), x.2.1.pos)) =
      .ok (some ([5, 7, 0, 0, 0, 0].getD (1 : Int).toNat 0 * block_item_per_part 0,
          if 1 < block_item_per_part 0
          then some ([5, 7, 0, 0, 0, 0].getD (1 : Int).toNat 0, block_item_per_part 0)
          else none),
        0 + 4 + List.sum [5, 7, 0, 0, 0, 0] *
          (block_item_per_part 0 * Dtype.itemsize .f32) + 4))
    ∧ ((blockStep [5, 7, 0, 0, 0, 0] [5, 7, 0, 0, 0, 0] (-1) 0 true true
        ⟨[144, 0, 0, 0] ++ List.replicate 144 3, 0⟩).map (fun x => x.2.1.pos) =
      .ok (0 + 4 + List.sum [5, 7, 0, 0, 0, 0] *
        (block_item_per_part 0 * Dtype.itemsize .f32) + 4))
    ∧ ((blockStep [5, 7, 0, 0, 0, 0] [5, 7, 0, 0, 0, 0] 1 0 true false
        ⟨[144, 0, 0, 0] ++ List.replicate 144 3, 0⟩).map
        (fun x => (x.1.map (fun a => (a.elems.length, a.shape2)), x.2.1.pos)) =
      .ok (some ([5, 7, 0, 0, 0, 0].getD (1 : Int).toNat 0 * block_item_per_part 0,
          if 1 < block_item_per_part 0
          then some ([5, 7, 0, 0, 0, 0].getD (1 : Int).toNat 0, block_item_per_part 0)
          else none),
        0 + 4 + List.sum ([5, 7, 0, 0, 0, 0].take (1 : Int).toNat) *
          (block_item_per_part 0 * Dtype.itemsize .f32)
          + [5, 7, 0, 0, 0, 0].getD (1 : Int).toNat 0 *
            (block_item_per_part 0 * Dtype.itemsize .f32))) :=
  C5_single_type_read [5, 7, 0, 0, 0, 0] [5, 7, 0, 0, 0, 0] [5, 7, 0, 0, 0, 0]
    1 0 ⟨[144, 0, 0, 0] ++ List.replicate 144 3, 0⟩ .f32
    (by norm_num) (by norm_num) (by norm_num) (by norm_num) (by norm_num)
    (by decide) (by rfl)

/-! ## C8: corrected — truncated streams -/

/-- Concrete stream for the C8 counterexample: header with
`npart = (2, 0, 0, 0, 0, 0)`, complete position and velocity records, then
an identifier record declaring 8 payload bytes of which only 4 are present
(the stream is truncated mid-payload). -/
def c8stream : List Nat :=
  List.replicate 4 0 ++ ([2, 0, 0, 0] ++ List.replicate 192 0) ++
    List.replicate 60 0 ++ List.replicate 4 0 ++
    [24, 0, 0, 0] ++ List.replicate 24 0 ++ List.replicate 4 0 ++
    [24, 0, 0, 0] ++ List.replicate 24 0 ++ List.replicate 4 0 ++
    [8, 0, 0, 0] ++ [1, 0, 0, 0]

set_option maxRecDepth 1000000 in
/-- C8 counterexample: the identifier payload read at offset 332 asks for
8 bytes but only 4 remain; `BytesIO.read` silently returns the short
buffer, `np.frombuffer` accepts it (4 is a multiple of the element size),
and the decoder returns a one-element identifier array instead of raising:
a truncated stream does NOT always fail. -/
theorem C8_counterexample :
    ((read_gadget_snapshot ⟨c8stream, 0⟩ false false true false (-1) false).map
        (fun x => ((match x.1 with
          | RetVal.tuple [_, RetItem.arr a] => some a.elems
          | _ => none), x.2.pos)) = .ok (some [1], 336))
    ∧ c8stream.length = 336
    ∧ 336 < 332 + 8
    ∧ (1 : Nat) ≠ 2 :=
  ⟨by rfl, by rfl, by norm_num, by norm_num⟩

/-- C8 (amended): a stream too short for the header read does fail with
`struct.error`: `struct.unpack` is the only read in the decoder that
checks the byte count it receives (the 4-byte block-size reads likewise).
Truncation at a seek is never detected (`BytesIO.seek` is unchecked), and
truncation inside a materialized single-component payload at a whole
element boundary silently yields a short array. -/
theorem C8_truncated_header (s : ByteStream)
    (read_pos read_vel read_id read_mass : Bool) (st : Int) (lg : Bool)
    (h : s.data.length < s.pos + 200) :
    read_gadget_snapshot s read_pos read_vel read_id read_mass st lg =
      .error .structError := by
  have hlen : ¬((s.data.drop (s.pos + 4)).take 196).length = 196 := by
    simp only [List.length_take, List.length_drop]
    omega
  simp only [read_gadget_snapshot, ByteStream.seekCur, ByteStream.read, ne_eq]
  rw [if_pos hlen]

/-- Witness for the amended C8 on the empty stream. -/
theorem C8_witness :
    (([] : List Nat).length < 0 + 200)
    ∧ read_gadget_snapshot ⟨[], 0⟩ true false false false (-1) false =
        .error .structError :=
  ⟨by norm_num,
   C8_truncated_header ⟨[], 0⟩ true false false false (-1) false (by norm_num)⟩

/-! ## C9: corrected — what the invalid-block-size error carries -/

/-- The width inference fails when the declared length matches neither
candidate. -/
theorem infer_block_fmt_fails (i sc bis : Nat)
    (h4 : sc ≠ bis * 4) (h8 : sc ≠ bis * 8) :
    infer_block_fmt sc bis (block_fmt i) (block_fmt_64 i) =
      .error .invalidBlockSize := by
  simp only [infer_block_fmt, block_fmt_itemsize, block_fmt_64_itemsize,
    apply_ite Dtype.itemsize, ne_eq, ite_not]
  split_ifs <;> simp_all

/-- C9 data: position block with declared length 5 (matches neither 12 nor
24 for one particle). -/
def c9stream_pos : List Nat :=
  List.replicate 4 0 ++ ([1, 0, 0, 0] ++ List.replicate 192 0) ++
    List.replicate 60 0 ++ List.replicate 4 0 ++ [5, 0, 0, 0]

/-- C9 data: identifier block with declared length 7 (matches neither 4 nor
8 for one particle), after complete position and velocity records. -/
def c9stream_id : List Nat :=
  List.replicate 4 0 ++ ([1, 0, 0, 0] ++ List.replicate 192 0) ++
    List.replicate 60 0 ++ List.replicate 4 0 ++
    [12, 0, 0, 0] ++ List.replicate 12 0 ++ List.replicate 4 0 ++
    [12, 0, 0, 0] ++ List.replicate 12 0 ++ List.replicate 4 0 ++
    [7, 0, 0, 0]

set_option maxRecDepth 1000000 in
/-- C9 counterexample: a failure on the position block (declared length 5)
and a failure on the identifier block (declared length 7) yield literally
identical error values — `ValueError('Invalid block size in file!')`
carries neither the offending block kind nor the observed/expected byte
counts. -/
theorem C9_counterexample :
    (read_gadget_snapshot ⟨c9stream_pos, 0⟩ true false false false (-1) false =
      .error .invalidBlockSize)
    ∧ (read_gadget_snapshot ⟨c9stream_id, 0⟩ false false true false (-1) false =
      .error .invalidBlockSize)
    ∧ (read_gadget_snapshot ⟨c9stream_pos, 0⟩ true false false false (-1) false =
      read_gadget_snapshot ⟨c9stream_id, 0⟩ false false true false (-1) false) :=
  ⟨by rfl, by rfl, by rfl⟩

/-- C9 (amended): when the position block's declared length matches neither
`3·N·4` nor `3·N·8`, the decode aborts with the bare, constant
invalid-block-size error (`ValueError('Invalid block size in file!')`),
which carries no block kind, byte count or offset. -/
theorem C9_invalid_block_size_plain (D : List Nat) (p : Nat)
    (r2 r3 r4 : Bool) (st : Int)
    (hav : p + 200 ≤ D.length) (hav2 : p + 268 ≤ D.length)
    (h4 : decodeLE ((D.drop (p + 264)).take 4) ≠
      3 * (gadget_header_make (unpackHeader ((D.drop (p + 4)).take 196))).npart.sum * 4)
    (h8 : decodeLE ((D.drop (p + 264)).take 4) ≠
      3 * (gadget_header_make (unpackHeader ((D.drop (p + 4)).take 196))).npart.sum * 8) :
    read_gadget_snapshot ⟨D, p⟩ true r2 r3 r4 st false =
      .error .invalidBlockSize := by
  rw [decode_reaches_loop D p true r2 r3 r4 st
    (if 0 ≤ st ∧ st ≤ 5 then st else -1) false
    (gadget_header_make (unpackHeader ((D.drop (p + 4)).take 196)))
    hav rfl rfl rfl]
  rw [blockLoop_cons_error _ _ _ 0 true [(1, r2), (2, r3), (3, r4)]
    ⟨D, p + 264⟩ _ .invalidBlockSize
    (blockStep_invalid _ _ _ 0 true _ ⟨D, p + 264⟩ .invalidBlockSize
      (by simp)
      (show p + 264 + 4 ≤ D.length by omega)
      (infer_block_fmt_fails 0 _ _ h4 h8))]

set_option maxRecDepth 1000000 in
/-- Witness for the amended C9 on the concrete bad-position-marker stream. -/
theorem C9_witness :
    (0 + 200 ≤ c9stream_pos.length) ∧ (0 + 268 ≤ c9stream_pos.length)
    ∧ (decodeLE ((c9stream_pos.drop (0 + 264)).take 4) ≠
        3 * (gadget_header_make
          (unpackHeader ((c9stream_pos.drop (0 + 4)).take 196))).npart.sum * 4)
    ∧ (decodeLE ((c9stream_pos.drop (0 + 264)).take 4) ≠
        3 * (gadget_header_make
          (unpackHeader ((c9stream_pos.drop (0 + 4)).take 196))).npart.sum * 8)
    ∧ read_gadget_snapshot ⟨c9stream_pos, 0⟩ true false false false (-1) false =
        .error .invalidBlockSize :=
  ⟨by decide, by decide, by decide, by decide,
   C9_invalid_block_size_plain c9stream_pos 0 false false false (-1)
     (by decide) (by decide) (by decide) (by decide)⟩

/-! ## Destructured-stream forms of the step lemmas, for chaining -/

theorem blockStep_skip' (npartH massNpart np : List Nat) (st : Int) (i : Nat)
    (more : Bool) (D : List Nat) (q : Nat) (fmt : Dtype)
    (hnp : np = if i = 3 then massNpart else npartH)
    (hmass : ¬(i = 3 ∧ massNpart.sum = 0))
    (hav : q + 4 ≤ D.length)
    (hinf : infer_block_fmt (decodeLE ((D.drop q).take 4))
        (block_item_per_part i * np.sum)
        (block_fmt i) (block_fmt_64 i) = .ok fmt) :
    blockStep npartH massNpart st i false more ⟨D, q⟩ =
      .ok (none, ⟨D, q + 4 + np.sum *
        (block_item_per_part i * fmt.itemsize) + 4⟩, false) := by
  subst hnp
  exact blockStep_skip npartH massNpart st i more ⟨D, q⟩ fmt hmass hav hinf

theorem blockStep_read_full_cont' (npartH massNpart np : List Nat) (st : Int)
    (i : Nat) (D : List Nat) (q : Nat) (fmt : Dtype)
    (hnp : np = if i = 3 then massNpart else npartH)
    (hmass : ¬(i = 3 ∧ massNpart.sum = 0))
    (hst : ¬((-1 : Int) < st))
    (hav : q + 4 + np.sum * (block_item_per_part i * fmt.itemsize) ≤ D.length)
    (hinf : infer_block_fmt (decodeLE ((D.drop q).take 4))
        (block_item_per_part i * np.sum)
        (block_fmt i) (block_fmt_64 i) = .ok fmt) :
    blockStep npartH massNpart st i true true ⟨D, q⟩ =
      .ok (some ⟨fmt,
          chunkWords fmt.itemsize ((D.drop (q + 4)).take
            (np.sum * (block_item_per_part i * fmt.itemsize))),
          if 1 < block_item_per_part i then some (np.sum, block_item_per_part i)
          else none⟩,
        ⟨D, q + 4 + np.sum * (block_item_per_part i * fmt.itemsize) + 4⟩,
        false) :=
  blockStep_read_full_cont npartH massNpart np st i ⟨D, q⟩ fmt hnp hmass hst hav hinf

theorem blockStep_read_full_last' (npartH massNpart np : List Nat) (st : Int)
    (i : Nat) (D : List Nat) (q : Nat) (fmt : Dtype)
    (hnp : np = if i = 3 then massNpart else npartH)
    (hmass : ¬(i = 3 ∧ massNpart.sum = 0))
    (hst : ¬((-1 : Int) < st))
    (hav : q + 4 + np.sum * (block_item_per_part i * fmt.itemsize) ≤ D.length)
    (hinf : infer_block_fmt (decodeLE ((D.drop q).take 4))
        (block_item_per_part i * np.sum)
        (block_fmt i) (block_fmt_64 i) = .ok fmt) :
    blockStep npartH massNpart st i true false ⟨D, q⟩ =
      .ok (some ⟨fmt,
          chunkWords fmt.itemsize ((D.drop (q + 4)).take
            (np.sum * (block_item_per_part i * fmt.itemsize))),
          if 1 < block_item_per_part i then some (np.sum, block_item_per_part i)
          else none⟩,
        ⟨D, q + 4 + np.sum * (block_item_per_part i * fmt.itemsize)⟩,
        true) :=
  blockStep_read_full_last npartH massNpart np st i ⟨D, q⟩ fmt hnp hmass hst hav hinf

theorem blockStep_read_single_last' (npartH massNpart np : List Nat) (st : Int)
    (i : Nat) (D : List Nat) (q : Nat) (fmt : Dtype)
    (hnp : np = if i = 3 then massNpart else npartH)
    (hmass : ¬(i = 3 ∧ massNpart.sum = 0))
    (hst : (-1 : Int) < st)
    (hav : q + 4 + (np.take st.toNat).sum * (block_item_per_part i * fmt.itemsize) +
        np.getD st.toNat 0 * (block_item_per_part i * fmt.itemsize) ≤ D.length)
    (hinf : infer_block_fmt (decodeLE ((D.drop q).take 4))
        (block_item_per_part i * np.sum)
        (block_fmt i) (block_fmt_64 i) = .ok fmt) :
    blockStep npartH massNpart st i true false ⟨D, q⟩ =
      .ok (some ⟨fmt,
          chunkWords fmt.itemsize ((D.drop
            (q + 4 + (np.take st.toNat).sum *
              (block_item_per_part i * fmt.itemsize))).take
            (np.getD st.toNat 0 * (block_item_per_part i * fmt.itemsize))),
          if 1 < block_item_per_part i
          then some (np.getD st.toNat 0, block_item_per_part i) else none⟩,
        ⟨D, q + 4 + (np.take st.toNat).sum * (block_item_per_part i * fmt.itemsize) +
          np.getD st.toNat 0 * (block_item_per_part i * fmt.itemsize)⟩,
        true) :=
  blockStep_read_single_last npartH massNpart np st i ⟨D, q⟩ fmt hnp hmass hst hav hinf

/-- Reduction of the `return tuple(ret)` wrapper on a successful walk. -/
theorem decode_match_ok (ret : List RetItem) (s : ByteStream) :
    (match (.ok (ret, s) : Except DecodeError (List RetItem × ByteStream)) with
     | .error e => (.error e : Except DecodeError (RetVal × ByteStream))
     | .ok (r, s4) => .ok (.tuple r, s4)) = .ok (.tuple ret, s) := rfl

/-! ## C4: corrected — all-fixed-mass headers -/

set_option maxHeartbeats 2000000 in
/-- C4 (amended): when every particle type has a fixed (nonzero) mass, the
mass-block item count is zero; requesting the mass block appends the empty
float32 array and performs no stream I/O for the mass block itself.  But
the final stream position is NOT the same as for the otherwise-equal call
without the mass request: requesting mass makes the walk skip through the
velocity and identifier records and consume the position record's trailing
marker, while the call without mass early-stops immediately after the
position payload. -/
theorem C4_requesting_fixed_mass (D : List Nat) (p : Nat)
    (hdr : gadget_header) (mn : List Nat) (fmtP fmtV fmtI : Dtype)
    (hhdr : hdr = gadget_header_make (unpackHeader ((D.drop (p + 4)).take 196)))
    (hmn : mn = List.zipWith (fun m n => if floatIsZero m then n else 0)
      hdr.mass hdr.npart)
    (hm0 : mn.sum = 0)
    (hav : p + 200 ≤ D.length)
    (havP : p + 268 + hdr.npart.sum * (3 * fmtP.itemsize) ≤ D.length)
    (hinfP : infer_block_fmt (decodeLE ((D.drop (p + 264)).take 4))
      (3 * hdr.npart.sum) (block_fmt 0) (block_fmt_64 0) = .ok fmtP)
    (havV : p + 276 + hdr.npart.sum * (3 * fmtP.itemsize) ≤ D.length)
    (hinfV : infer_block_fmt (decodeLE ((D.drop
        (p + 272 + hdr.npart.sum * (3 * fmtP.itemsize))).take 4))
      (3 * hdr.npart.sum) (block_fmt 1) (block_fmt_64 1) = .ok fmtV)
    (havI : p + 284 + hdr.npart.sum * (3 * fmtP.itemsize) +
        hdr.npart.sum * (3 * fmtV.itemsize) ≤ D.length)
    (hinfI : infer_block_fmt (decodeLE ((D.drop
        (p + 280 + hdr.npart.sum * (3 * fmtP.itemsize) +
          hdr.npart.sum * (3 * fmtV.itemsize))).take 4))
      (1 * hdr.npart.sum) (block_fmt 2) (block_fmt_64 2) = .ok fmtI) :
    ((read_gadget_snapshot ⟨D, p⟩ true false false true (-1) false).map
        (fun x => ((match x.1 with
          | RetVal.tuple l => some (l.length, l.getLast?)
          | RetVal.bareHeader _ => none), x.2.pos)) =
      .ok (some (3, some (RetItem.arr ⟨.f32, [], none⟩)),
        p + 288 + hdr.npart.sum * (3 * fmtP.itemsize) +
          hdr.npart.sum * (3 * fmtV.itemsize) + hdr.npart.sum * fmtI.itemsize))
    ∧ ((read_gadget_snapshot ⟨D, p⟩ true false false false (-1) false).map
        (fun x => x.2.pos) =
      .ok (p + 268 + hdr.npart.sum * (3 * fmtP.itemsize)))
    ∧ p + 288 + hdr.npart.sum * (3 * fmtP.itemsize) +
        hdr.npart.sum * (3 * fmtV.itemsize) + hdr.npart.sum * fmtI.itemsize ≠
      p + 268 + hdr.npart.sum * (3 * fmtP.itemsize) := by
  have hb0 : block_item_per_part 0 = 3 := rfl
  have hb1 : block_item_per_part 1 = 3 := rfl
  have hb2 : block_item_per_part 2 = 1 := rfl
  have hmnsum : (List.zipWith (fun m n => if floatIsZero m then n else 0)
      hdr.mass hdr.npart).sum = 0 := by
    rw [← hmn]
    exact hm0
  refine ⟨?_, ?_, by omega⟩
  · rw [decode_reaches_loop D p true false false true (-1) (-1) false hdr hav rfl
      (by rw [hhdr]; simp) (by decide)]
    rw [blockLoop_cons_cont _ _ _ 0 true _ _ _ _ _
      (blockStep_read_full_cont' _ _ hdr.npart (-1) 0 D (p + 264) fmtP rfl
        (by simp) (by decide)
        (show p + 264 + 4 + hdr.npart.sum *
            (block_item_per_part 0 * fmtP.itemsize) ≤ D.length by
          rw [hb0]; omega)
        hinfP)]
    simp only [show p + 264 + 4 + hdr.npart.sum *
        (block_item_per_part 0 * fmtP.itemsize) + 4 =
        p + 272 + hdr.npart.sum * (3 * fmtP.itemsize) from by rw [hb0]; all_goals omega]
    rw [blockLoop_cons_cont _ _ _ 1 false _ _ _ _ _
      (blockStep_skip' _ _ hdr.npart (-1) 1 _ D
        (p + 272 + hdr.npart.sum * (3 * fmtP.itemsize)) fmtV rfl
        (by simp) (by omega) hinfV)]
    simp only [show p + 272 + hdr.npart.sum * (3 * fmtP.itemsize) + 4 +
        hdr.npart.sum * (block_item_per_part 1 * fmtV.itemsize) + 4 =
        p + 280 + hdr.npart.sum * (3 * fmtP.itemsize) +
          hdr.npart.sum * (3 * fmtV.itemsize) from by rw [hb1]; all_goals omega]
    rw [blockLoop_cons_cont _ _ _ 2 false _ _ _ _ _
      (blockStep_skip' _ _ hdr.npart (-1) 2 _ D
        (p + 280 + hdr.npart.sum * (3 * fmtP.itemsize) +
          hdr.npart.sum * (3 * fmtV.itemsize)) fmtI rfl
        (by simp) (by omega) hinfI)]
    simp only [show p + 280 + hdr.npart.sum * (3 * fmtP.itemsize) +
        hdr.npart.sum * (3 * fmtV.itemsize) + 4 +
        hdr.npart.sum * (block_item_per_part 2 * fmtI.itemsize) + 4 =
        p + 288 + hdr.npart.sum * (3 * fmtP.itemsize) +
          hdr.npart.sum * (3 * fmtV.itemsize) + hdr.npart.sum * fmtI.itemsize
      from by rw [hb2, Nat.one_mul]; all_goals omega]
    rw [blockLoop_cons_break _ _ _ 3 true [] _ _ _ _
      (blockStep_massEmpty _ _ (-1) true _ _ hmnsum)]
    rfl
  · rw [decode_reaches_loop D p true false false false (-1) (-1) false hdr hav rfl
      (by rw [hhdr]; simp) (by decide)]
    rw [blockLoop_cons_break _ _ _ 0 true [(1, false), (2, false), (3, false)]
      _ _ _ _
      (blockStep_read_full_last' _ _ hdr.npart (-1) 0 D (p + 264) fmtP rfl
        (by simp) (by decide)
        (show p + 264 + 4 + hdr.npart.sum *
            (block_item_per_part 0 * fmtP.itemsize) ≤ D.length by
          rw [hb0]; omega)
        hinfP)]
    simp only [show p + 264 + 4 + hdr.npart.sum *
        (block_item_per_part 0 * fmtP.itemsize) =
        p + 268 + hdr.npart.sum * (3 * fmtP.itemsize) from by rw [hb0]; all_goals omega]
    rfl

/-- Concrete stream for C4: header with `npart = (1, 0, ..., 0)` and all six
`mass` words nonzero, followed by complete position, velocity and
identifier records. -/
def c4stream : List Nat :=
  List.replicate 4 0 ++
    ([1, 0, 0, 0] ++ List.replicate 20 0 ++
      (List.replicate 6 [1, 0, 0, 0, 0, 0, 0, 0]).flatten ++
      List.replicate 124 0) ++
    List.replicate 60 0 ++ List.replicate 4 0 ++
    [12, 0, 0, 0] ++ List.replicate 12 0 ++ List.replicate 4 0 ++
    [12, 0, 0, 0] ++ List.replicate 12 0 ++ List.replicate 4 0 ++
    [4, 0, 0, 0] ++ List.replicate 4 0 ++ List.replicate 4 0

set_option maxRecDepth 1000000 in
/-- C4 counterexample: with all six masses fixed, requesting
`{position, mass}` ends at offset 316 (after walking through the velocity
and identifier records), while the otherwise-equal `{position}` call ends
at 280 — the final positions are not identical, contrary to the claim.
The mass request does append an empty float32 array. -/
theorem C4_counterexample :
    ((read_gadget_snapshot ⟨c4stream, 0⟩ true false false true (-1) false).map
        (fun x => ((match x.1 with
          | RetVal.tuple l => some (l.length, l.getLast?)
          | RetVal.bareHeader _ => none), x.2.pos)) =
      .ok (some (3, some (RetItem.arr ⟨.f32, [], none⟩)), 316))
    ∧ ((read_gadget_snapshot ⟨c4stream, 0⟩ true false false false (-1) false).map
        (fun x => x.2.pos) = .ok 280)
    ∧ (316 : Nat) ≠ 280 :=
  ⟨by rfl, by rfl, by norm_num⟩

set_option maxRecDepth 1000000 in
/-- Witness for the amended C4 on the same concrete stream. -/
theorem C4_witness :
    ((read_gadget_snapshot ⟨c4stream, 0⟩ true false false true (-1) false).map
        (fun x => ((match x.1 with
          | RetVal.tuple l => some (l.length, l.getLast?)
          | RetVal.bareHeader _ => none), x.2.pos)) =
      .ok (some (3, some (RetItem.arr ⟨.f32, [], none⟩)), 316))
    ∧ ((read_gadget_snapshot ⟨c4stream, 0⟩ true false false false (-1) false).map
        (fun x => x.2.pos) = .ok 280)
    ∧ (316 : Nat) ≠ 280 :=
  C4_requesting_fixed_mass c4stream 0
    (gadget_header_make (unpackHeader ((c4stream.drop (0 + 4)).take 196)))
    (List.zipWith (fun m n => if floatIsZero m then n else 0)
      (gadget_header_make (unpackHeader ((c4stream.drop (0 + 4)).take 196))).mass
      (gadget_header_make (unpackHeader ((c4stream.drop (0 + 4)).take 196))).npart)
    .f32 .f32 .u32 rfl rfl (by decide) (by decide) (by decide) (by rfl)
    (by decide) (by rfl) (by decide) (by rfl)

/-- Two buffers agreeing on their first `K` bytes yield the same slice for
any window lying below `K`. -/
theorem take_agree_extract (D E : List Nat) (K off n : Nat)
    (h : D.take K = E.take K) (hle : off + n ≤ K) :
    (D.drop off).take n = (E.drop off).take n := by
  have key : ∀ (L : List Nat), (L.drop off).take n =
      ((L.take K).drop off).take n := by
    intro L
    rw [List.take_drop, List.take_drop, List.take_take,
      Nat.min_eq_left hle]
  rw [key D, key E, h]

set_option maxHeartbeats 2000000 in
/-- The complete run of a request for the identifier block only: the
position and velocity records are skipped, the identifier block is
materialized (fully, or for the single selected type), and the walk stops
immediately — no trailing marker and nothing after the identifier items is
touched. -/
theorem run_id_only (D : List Nat) (p : Nat) (st st' : Int)
    (hdr : gadget_header) (fmtP fmtV fmtI : Dtype)
    (hhdr : hdr = gadget_header_make (unpackHeader ((D.drop (p + 4)).take 196)))
    (hst' : st' = if 0 ≤ st ∧ st ≤ 5 then st else -1)
    (hst5 : st' ≤ 5)
    (hav : p + 200 ≤ D.length)
    (hinfP : infer_block_fmt (decodeLE ((D.drop (p + 264)).take 4))
      (3 * hdr.npart.sum) (block_fmt 0) (block_fmt_64 0) = .ok fmtP)
    (havP : p + 268 ≤ D.length)
    (hinfV : infer_block_fmt (decodeLE ((D.drop
        (p + 272 + hdr.npart.sum * (3 * fmtP.itemsize))).take 4))
      (3 * hdr.npart.sum) (block_fmt 1) (block_fmt_64 1) = .ok fmtV)
    (havV : p + 276 + hdr.npart.sum * (3 * fmtP.itemsize) ≤ D.length)
    (hinfI : infer_block_fmt (decodeLE ((D.drop
        (p + 280 + hdr.npart.sum * (3 * fmtP.itemsize) +
          hdr.npart.sum * (3 * fmtV.itemsize))).take 4))
      (1 * hdr.npart.sum) (block_fmt 2) (block_fmt_64 2) = .ok fmtI)
    (havI : p + 284 + hdr.npart.sum * (3 * fmtP.itemsize) +
        hdr.npart.sum * (3 * fmtV.itemsize) +
        hdr.npart.sum * fmtI.itemsize ≤ D.length) :
    read_gadget_snapshot ⟨D, p⟩ false false true false st false =
      .ok (.tuple [RetItem.header hdr, RetItem.arr ⟨fmtI,
          (if (-1 : Int) < st' then
            chunkWords fmtI.itemsize ((D.drop
              (p + 280 + hdr.npart.sum * (3 * fmtP.itemsize) +
                hdr.npart.sum * (3 * fmtV.itemsize) + 4 +
                (hdr.npart.take st'.toNat).sum * fmtI.itemsize)).take
              (hdr.npart.getD st'.toNat 0 * fmtI.itemsize))
          else
            chunkWords fmtI.itemsize ((D.drop
              (p + 280 + hdr.npart.sum * (3 * fmtP.itemsize) +
                hdr.npart.sum * (3 * fmtV.itemsize) + 4)).take
              (hdr.npart.sum * fmtI.itemsize))),
          none⟩],
        ⟨D, if (-1 : Int) < st' then
            p + 280 + hdr.npart.sum * (3 * fmtP.itemsize) +
              hdr.npart.sum * (3 * fmtV.itemsize) + 4 +
              (hdr.npart.take st'.toNat).sum * fmtI.itemsize +
              hdr.npart.getD st'.toNat 0 * fmtI.itemsize
          else
            p + 280 + hdr.npart.sum * (3 * fmtP.itemsize) +
              hdr.npart.sum * (3 * fmtV.itemsize) + 4 +
              hdr.npart.sum * fmtI.itemsize⟩) := by
  have hb0 : block_item_per_part 0 = 3 := rfl
  have hb1 : block_item_per_part 1 = 3 := rfl
  have hb2 : block_item_per_part 2 = 1 := rfl
  have hlen6 : hdr.npart.length = 6 := by rw [hhdr]; rfl
  rw [decode_reaches_loop D p false false true false st st' false hdr hav rfl
    (by rw [hhdr]; simp) hst']
  rw [blockLoop_cons_cont _ _ _ 0 false _ _ _ _ _
    (blockStep_skip' _ _ hdr.npart st' 0 _ D (p + 264) fmtP rfl
      (by simp) (by omega) hinfP)]
  simp only [show p + 264 + 4 + hdr.npart.sum *
      (block_item_per_part 0 * fmtP.itemsize) + 4 =
      p + 272 + hdr.npart.sum * (3 * fmtP.itemsize) from by
    rw [hb0]; all_goals omega]
  rw [blockLoop_cons_cont _ _ _ 1 false _ _ _ _ _
    (blockStep_skip' _ _ hdr.npart st' 1 _ D
      (p + 272 + hdr.npart.sum * (3 * fmtP.itemsize)) fmtV rfl
      (by simp) (by omega) hinfV)]
  simp only [show p + 272 + hdr.npart.sum * (3 * fmtP.itemsize) + 4 +
      hdr.npart.sum * (block_item_per_part 1 * fmtV.itemsize) + 4 =
      p + 280 + hdr.npart.sum * (3 * fmtP.itemsize) +
        hdr.npart.sum * (3 * fmtV.itemsize) from by
    rw [hb1]; all_goals omega]
  by_cases hc : (-1 : Int) < st'
  · have ht6 : st'.toNat < hdr.npart.length := by omega
    have hsplit := sum_split_at hdr.npart st'.toNat ht6
    rw [blockLoop_cons_break _ _ _ 2 true [(3, false)] _ _ _ _
      (blockStep_read_single_last' _ _ hdr.npart st' 2 D
        (p + 280 + hdr.npart.sum * (3 * fmtP.itemsize) +
          hdr.npart.sum * (3 * fmtV.itemsize)) fmtI rfl
        (by simp) hc
        (by
          rw [hb2, Nat.one_mul]
          have hmul : ((hdr.npart.take st'.toNat).sum +
              hdr.npart.getD st'.toNat 0) * fmtI.itemsize ≤
              hdr.npart.sum * fmtI.itemsize :=
            Nat.mul_le_mul_right _ (by omega)
          rw [Nat.add_mul] at hmul
          omega)
        hinfI)]
    simp only [hb2, Nat.one_mul, if_pos hc]
    rfl
  · rw [blockLoop_cons_break _ _ _ 2 true [(3, false)] _ _ _ _
      (blockStep_read_full_last' _ _ hdr.npart st' 2 D
        (p + 280 + hdr.npart.sum * (3 * fmtP.itemsize) +
          hdr.npart.sum * (3 * fmtV.itemsize)) fmtI rfl
        (by simp) hc
        (by rw [hb2, Nat.one_mul]; omega)
        hinfI)]
    simp only [hb2, Nat.one_mul, if_neg hc]
    rfl

/-! ## C7: early stop — the walk never touches bytes after the id items -/

set_option maxHeartbeats 2000000 in
/-- C7: a call requesting only the identifier block stops the walk right
after materializing the identifier items (no later kind being requested):
its observable result — returned value and final offset — is identical on
any two streams that agree on the bytes up to the end of the identifier
payload (`K`), however they differ afterwards (in particular at the bytes
where a mass record would live); and the final offset stays within `K`,
before the identifier record's trailing marker. -/
theorem C7_early_stop (D E : List Nat) (p : Nat) (st st' : Int)
    (hdr : gadget_header) (fmtP fmtV fmtI : Dtype)
    (hhdr : hdr = gadget_header_make (unpackHeader ((D.drop (p + 4)).take 196)))
    (hst' : st' = if 0 ≤ st ∧ st ≤ 5 then st else -1)
    (hav : p + 200 ≤ D.length)
    (hinfP : infer_block_fmt (decodeLE ((D.drop (p + 264)).take 4))
      (3 * hdr.npart.sum) (block_fmt 0) (block_fmt_64 0) = .ok fmtP)
    (hinfV : infer_block_fmt (decodeLE ((D.drop
        (p + 272 + hdr.npart.sum * (3 * fmtP.itemsize))).take 4))
      (3 * hdr.npart.sum) (block_fmt 1) (block_fmt_64 1) = .ok fmtV)
    (hinfI : infer_block_fmt (decodeLE ((D.drop
        (p + 280 + hdr.npart.sum * (3 * fmtP.itemsize) +
          hdr.npart.sum * (3 * fmtV.itemsize))).take 4))
      (1 * hdr.npart.sum) (block_fmt 2) (block_fmt_64 2) = .ok fmtI)
    (havI : p + 284 + hdr.npart.sum * (3 * fmtP.itemsize) +
        hdr.npart.sum * (3 * fmtV.itemsize) +
        hdr.npart.sum * fmtI.itemsize ≤ D.length)
    (hK : D.take (p + 284 + hdr.npart.sum * (3 * fmtP.itemsize) +
        hdr.npart.sum * (3 * fmtV.itemsize) + hdr.npart.sum * fmtI.itemsize) =
      E.take (p + 284 + hdr.npart.sum * (3 * fmtP.itemsize) +
        hdr.npart.sum * (3 * fmtV.itemsize) + hdr.npart.sum * fmtI.itemsize)) :
    ((read_gadget_snapshot ⟨D, p⟩ false false true false st false).map
        (fun x => (x.1, x.2.pos)) =
      (read_gadget_snapshot ⟨E, p⟩ false false true false st false).map
        (fun x => (x.1, x.2.pos)))
    ∧ ((read_gadget_snapshot ⟨D, p⟩ false false true false st false).map
        (fun x => x.2.pos) =
      .ok (if (-1 : Int) < st' then
          p + 280 + hdr.npart.sum * (3 * fmtP.itemsize) +
            hdr.npart.sum * (3 * fmtV.itemsize) + 4 +
            (hdr.npart.take st'.toNat).sum * fmtI.itemsize +
            hdr.npart.getD st'.toNat 0 * fmtI.itemsize
        else
          p + 280 + hdr.npart.sum * (3 * fmtP.itemsize) +
            hdr.npart.sum * (3 * fmtV.itemsize) + 4 +
            hdr.npart.sum * fmtI.itemsize)) := by
  have hst5 : st' ≤ 5 := by
    rw [hst']
    split_ifs <;> omega
  have hlen6 : hdr.npart.length = 6 := by
    rw [hhdr]
    rfl
  have hKlen := congrArg List.length hK
  simp only [List.length_take] at hKlen
  have hlenE : p + 284 + hdr.npart.sum * (3 * fmtP.itemsize) +
      hdr.npart.sum * (3 * fmtV.itemsize) + hdr.npart.sum * fmtI.itemsize ≤
      E.length := by omega
  have hhdrE : hdr = gadget_header_make
      (unpackHeader ((E.drop (p + 4)).take 196)) := by
    rw [hhdr, take_agree_extract D E _ (p + 4) 196 hK (by omega)]
  have hinfPE : infer_block_fmt (decodeLE ((E.drop (p + 264)).take 4))
      (3 * hdr.npart.sum) (block_fmt 0) (block_fmt_64 0) = .ok fmtP := by
    rw [← take_agree_extract D E _ (p + 264) 4 hK (by omega)]
    exact hinfP
  have hinfVE : infer_block_fmt (decodeLE ((E.drop
      (p + 272 + hdr.npart.sum * (3 * fmtP.itemsize))).take 4))
      (3 * hdr.npart.sum) (block_fmt 1) (block_fmt_64 1) = .ok fmtV := by
    rw [← take_agree_extract D E _
      (p + 272 + hdr.npart.sum * (3 * fmtP.itemsize)) 4 hK (by omega)]
    exact hinfV
  have hinfIE : infer_block_fmt (decodeLE ((E.drop
      (p + 280 + hdr.npart.sum * (3 * fmtP.itemsize) +
        hdr.npart.sum * (3 * fmtV.itemsize))).take 4))
      (1 * hdr.npart.sum) (block_fmt 2) (block_fmt_64 2) = .ok fmtI := by
    rw [← take_agree_extract D E _
      (p + 280 + hdr.npart.sum * (3 * fmtP.itemsize) +
        hdr.npart.sum * (3 * fmtV.itemsize)) 4 hK (by omega)]
    exact hinfI
  have hD := run_id_only D p st st' hdr fmtP fmtV fmtI hhdr hst' hst5 hav
    hinfP (by omega) hinfV (by omega) hinfI (by omega)
  have hE := run_id_only E p st st' hdr fmtP fmtV fmtI hhdrE hst' hst5
    (by omega) hinfPE (by omega) hinfVE (by omega) hinfIE (by omega)
  constructor
  · rw [hD, hE]
    simp only [Except.map]
    by_cases hc : (-1 : Int) < st'
    · have ht6 : st'.toNat < hdr.npart.length := by omega
      have hsplit := sum_split_at hdr.npart st'.toNat ht6
      have hmul : ((hdr.npart.take st'.toNat).sum +
          hdr.npart.getD st'.toNat 0) * fmtI.itemsize ≤
          hdr.npart.sum * fmtI.itemsize :=
        Nat.mul_le_mul_right _ (by omega)
      rw [Nat.add_mul] at hmul
      simp only [if_pos hc]
      rw [take_agree_extract D E _
        (p + 280 + hdr.npart.sum * (3 * fmtP.itemsize) +
          hdr.npart.sum * (3 * fmtV.itemsize) + 4 +
          (hdr.npart.take st'.toNat).sum * fmtI.itemsize)
        (hdr.npart.getD st'.toNat 0 * fmtI.itemsize) hK (by omega)]
    · simp only [if_neg hc]
      rw [take_agree_extract D E _
        (p + 280 + hdr.npart.sum * (3 * fmtP.itemsize) +
          hdr.npart.sum * (3 * fmtV.itemsize) + 4)
        (hdr.npart.sum * fmtI.itemsize) hK (by omega)]
  · rw [hD]
    simp only [Except.map]

/-- Concrete stream for the C7 witness: header with `npart = (2, 0, ..., 0)`,
complete position and velocity records, and the identifier record's marker
and payload — and nothing beyond (340 bytes). -/
def c7stream : List Nat :=
  List.replicate 4 0 ++ ([2, 0, 0, 0] ++ List.replicate 192 0) ++
    List.replicate 60 0 ++ List.replicate 4 0 ++
    [24, 0, 0, 0] ++ List.replicate 24 0 ++ List.replicate 4 0 ++
    [24, 0, 0, 0] ++ List.replicate 24 0 ++ List.replicate 4 0 ++
    [8, 0, 0, 0] ++ [1, 0, 0, 0, 2, 0, 0, 0]

set_option maxRecDepth 1000000 in
/-- Witness for C7: appending junk bytes (where a mass record would live)
changes neither the value nor the final offset of an identifier-only read,
which ends at 340, right after the identifier items. -/
theorem C7_witness :
    ((read_gadget_snapshot ⟨c7stream, 0⟩ false false true false (-1) false).map
        (fun x => (x.1, x.2.pos)) =
      (read_gadget_snapshot ⟨c7stream ++ [9, 9, 9], 0⟩
          false false true false (-1) false).map
        (fun x => (x.1, x.2.pos)))
    ∧ ((read_gadget_snapshot ⟨c7stream, 0⟩ false false true false (-1) false).map
        (fun x => x.2.pos) = .ok 340) :=
  C7_early_stop c7stream (c7stream ++ [9, 9, 9]) 0 (-1) (-1)
    (gadget_header_make (unpackHeader ((c7stream.drop (0 + 4)).take 196)))
    .f32 .f32 .u32 rfl (by decide) (by decide) (by rfl) (by rfl) (by rfl)
    (by decide) (by decide)
